import Mathlib

/-!
# Prismalia core — shallow embedding and verification

This file embeds the core of the Prismalia game (procedural tile-map
generation, tile queries and mutators, entity movement, the companion
state machine, the inventory, the isometric coordinate transform, and
world serialization) as executable Lean definitions, translated from the
Python sources under `src/`, and proves or refutes the specification's
claims about them.

Modelling conventions:
* Python floats are modelled as exact rationals (`ℚ`).  Decimal literals
  such as `0.32` denote the exact decimal value.  Claims settled here are
  about control flow, determinism and algebra, not about float rounding.
* Python's `math.sqrt` / `pygame.Vector2.length` has no exact rational
  counterpart; functions that need a square root take an explicit
  `sq : ℚ → ℚ` parameter, and theorems either hold for every `sq` or
  hypothesise that `sq` is exact at the point where it is used.
  `sqrtQ` below is an executable square root that is exact on perfect
  squares, used for concrete runs.
* Python `int` is arbitrary precision; `int(x)` truncates toward zero
  (`pyInt`), `math.floor` is `Int.floor`.
* Mutation is modelled by state passing: a Python method that mutates
  `self` becomes a Lean function returning the updated value.
-/

namespace Prismalia

/-- Python `int(x)` on a float/rational: truncation toward zero. -/
def pyInt (q : ℚ) : ℤ := if q < 0 then ⌈q⌉ else ⌊q⌋

theorem pyInt_gt (q : ℚ) : q - 1 < (pyInt q : ℚ) := by
  unfold pyInt
  split
  · have := Int.le_ceil q
    linarith
  · have := Int.sub_one_lt_floor q
    linarith

theorem pyInt_lt (q : ℚ) : (pyInt q : ℚ) < q + 1 := by
  unfold pyInt
  split
  · have := Int.ceil_lt_add_one q
    linarith
  · have := Int.floor_le q
    linarith

/-- Kernel-reducible integer square root by bisection (`Nat.sqrt` is
defined by well-founded recursion and does not reduce in `decide`). -/
def natSqrtGo (n : ℕ) : ℕ → ℕ → ℕ → ℕ
  | lo, _, 0 => lo
  | lo, hi, fuel + 1 =>
    let mid := (lo + hi + 1) / 2
    if mid ≤ hi ∧ mid * mid ≤ n then natSqrtGo n mid hi fuel
    else natSqrtGo n lo (mid - 1) fuel

def natSqrt (n : ℕ) : ℕ := natSqrtGo n 0 n 64

/-- Executable rational square root, exact on perfect squares
(numerator and denominator both perfect squares). -/
def sqrtQ (q : ℚ) : ℚ :=
  if q ≤ 0 then 0
  else (natSqrt q.num.toNat : ℚ) / (natSqrt q.den : ℚ)

/-! ## Coordinate transform (`src/src/engine/isometric.py`)

`TILE_WIDTH = 64`, `TILE_HEIGHT = 32` (`src/src/engine/constants.py`), so
`TILE_WIDTH / 2 = 32` and `TILE_HEIGHT / 2 = 16`.  `grid_to_screen`
truncates its float results with `int(...)`. -/

def TILE_WIDTH : ℚ := 64
def TILE_HEIGHT : ℚ := 32

/-- `grid_to_screen(x, y, offset_x, offset_y)`. -/
def grid_to_screen (x y offset_x offset_y : ℚ) : ℤ × ℤ :=
  let iso_x := (x - y) * (TILE_WIDTH / 2)
  let iso_y := (x + y) * (TILE_HEIGHT / 2)
  (pyInt (iso_x + offset_x), pyInt (iso_y + offset_y))

/-- `screen_to_grid(screen_x, screen_y, offset_x, offset_y)`. -/
def screen_to_grid (screen_x screen_y offset_x offset_y : ℚ) : ℤ × ℤ :=
  let dx := screen_x - offset_x
  let dy := screen_y - offset_y
  let cart_x := (dx / (TILE_WIDTH / 2) + dy / (TILE_HEIGHT / 2)) / 2
  let cart_y := (dy / (TILE_HEIGHT / 2) - dx / (TILE_WIDTH / 2)) / 2
  (⌊cart_x⌋, ⌊cart_y⌋)

private lemma floor_add_half_eq (t : ℤ) (d : ℚ) (hd : |d| < 1/2) :
    ⌊(t : ℚ) + (1/2 - d)⌋ = t := by
  rw [abs_lt] at hd
  have h0 : (0 : ℚ) ≤ 1/2 - d := by linarith
  have h1 : (1/2 : ℚ) - d < 1 := by linarith
  rw [Int.floor_int_add]
  have : ⌊(1/2 : ℚ) - d⌋ = 0 := by
    rw [Int.floor_eq_zero_iff]
    exact ⟨h0, h1⟩
  omega

private lemma screen_to_grid_near (tx ty : ℤ) (ox oy : ℚ) (sx sy : ℤ)
    (hx1 : ((tx : ℚ) - (ty : ℚ)) * 32 + ox - 1 < (sx : ℚ))
    (hx2 : (sx : ℚ) < ((tx : ℚ) - (ty : ℚ)) * 32 + ox + 1)
    (hy1 : ((tx : ℚ) + (ty : ℚ) + 1) * 16 + oy - 1 < (sy : ℚ))
    (hy2 : (sy : ℚ) < ((tx : ℚ) + (ty : ℚ) + 1) * 16 + oy + 1) :
    screen_to_grid (sx : ℚ) (sy : ℚ) ox oy = (tx, ty) := by
  set d1 : ℚ := ((tx : ℚ) - (ty : ℚ)) * 32 + ox - (sx : ℚ) with hd1
  set d2 : ℚ := ((tx : ℚ) + (ty : ℚ) + 1) * 16 + oy - (sy : ℚ) with hd2
  have hb1 : |d1| < 1 := by rw [abs_lt]; constructor <;> [linarith; linarith]
  have hb2 : |d2| < 1 := by rw [abs_lt]; constructor <;> [linarith; linarith]
  have hsx : (sx : ℚ) = ((tx : ℚ) - (ty : ℚ)) * 32 + ox - d1 := by rw [hd1]; ring
  have hsy : (sy : ℚ) = ((tx : ℚ) + (ty : ℚ) + 1) * 16 + oy - d2 := by rw [hd2]; ring
  unfold screen_to_grid TILE_WIDTH TILE_HEIGHT
  dsimp only
  rw [abs_lt] at hb1 hb2
  have hcx : ((sx : ℚ) - ox) / (64 / 2) + ((sy : ℚ) - oy) / (32 / 2) =
      ((tx : ℚ) + (1 / 2 - (d1 / 64 + d2 / 32))) * 2 := by
    rw [hsx, hsy]; ring
  have hcy : ((sy : ℚ) - oy) / (32 / 2) - ((sx : ℚ) - ox) / (64 / 2) =
      ((ty : ℚ) + (1 / 2 - (d2 / 32 - d1 / 64))) * 2 := by
    rw [hsx, hsy]; ring
  have h22 : (2 : ℚ) / 2 = 1 := by norm_num
  have h1 : ⌊(((sx : ℚ) - ox) / (64 / 2) + ((sy : ℚ) - oy) / (32 / 2)) / 2⌋ = tx := by
    rw [hcx, mul_div_assoc, h22, mul_one]
    exact floor_add_half_eq tx (d1 / 64 + d2 / 32)
      (by rw [abs_lt]; constructor <;> [linarith; linarith])
  have h2 : ⌊(((sy : ℚ) - oy) / (32 / 2) - ((sx : ℚ) - ox) / (64 / 2)) / 2⌋ = ty := by
    rw [hcy, mul_div_assoc, h22, mul_one]
    exact floor_add_half_eq ty (d2 / 32 - d1 / 64)
      (by rw [abs_lt]; constructor <;> [linarith; linarith])
  rw [Prod.mk.injEq]
  exact ⟨h1, h2⟩

/-- C8: for every integer tile coordinate `(tx, ty)` and every camera offset,
converting the tile centre `(tx + 0.5, ty + 0.5)` to screen coordinates and
back with the same offset recovers `(tx, ty)` exactly. -/
theorem screen_grid_round_trip (tx ty : ℤ) (offset_x offset_y : ℚ) :
    screen_to_grid
      ((grid_to_screen ((tx : ℚ) + 1/2) ((ty : ℚ) + 1/2) offset_x offset_y).1 : ℚ)
      ((grid_to_screen ((tx : ℚ) + 1/2) ((ty : ℚ) + 1/2) offset_x offset_y).2 : ℚ)
      offset_x offset_y = (tx, ty) := by
  unfold grid_to_screen TILE_WIDTH TILE_HEIGHT
  dsimp only
  apply screen_to_grid_near
  · have h := pyInt_gt ((((tx : ℚ) + 1/2) - ((ty : ℚ) + 1/2)) * (64 / 2) + offset_x)
    push_cast at h ⊢
    linarith
  · have h := pyInt_lt ((((tx : ℚ) + 1/2) - ((ty : ℚ) + 1/2)) * (64 / 2) + offset_x)
    push_cast at h ⊢
    linarith
  · have h := pyInt_gt ((((tx : ℚ) + 1/2) + ((ty : ℚ) + 1/2)) * (32 / 2) + offset_y)
    push_cast at h ⊢
    linarith
  · have h := pyInt_lt ((((tx : ℚ) + 1/2) + ((ty : ℚ) + 1/2)) * (32 / 2) + offset_y)
    push_cast at h ⊢
    linarith

/-! ## Tile map data model (`src/src/engine/tilemap.py`)

A `Tile` is a record of terrain string, walkable flag, optional resource
and optional player-placed block.  `TileMap` owns `height` rows of
`width` tiles. -/

structure Tile where
  terrain : String
  walkable : Bool := true
  resource : Option String := none
  block : Option String := none
  deriving Repr, DecidableEq

def defaultTile : Tile := { terrain := "grass" }

structure TileMap where
  width : ℕ
  height : ℕ
  tiles : List (List Tile)
  deriving Repr, DecidableEq

/-- The backing array shape produced by `TileMap.__init__`: `height` rows
each of `width` tiles. -/
def TileMap.wf (tm : TileMap) : Prop :=
  tm.tiles.length = tm.height ∧ ∀ row ∈ tm.tiles, row.length = tm.width

instance (tm : TileMap) : Decidable tm.wf := by
  unfold TileMap.wf; exact instDecidableAnd

/-- `TileMap(width, height)`: fresh grid of walkable grass tiles. -/
def TileMap.init (width height : ℕ) : TileMap :=
  { width, height,
    tiles := List.replicate height (List.replicate width defaultTile) }

theorem TileMap.init_wf (width height : ℕ) : (TileMap.init width height).wf := by
  constructor
  · simp [TileMap.init]
  · intro row hrow
    simp only [TileMap.init, List.eq_of_mem_replicate hrow]
    simp

/-- Python list indexing `l[i]`: a negative index counts from the end of
the list; an index out of `[-len, len)` raises `IndexError`, modelled as
`none`. -/
def pyListGet (l : List α) (i : ℤ) : Option α :=
  if 0 ≤ i then l.get? i.toNat
  else if -(l.length : ℤ) ≤ i then l.get? (i + l.length).toNat
  else none

/-- `TileMap.get(x, y)` is `self.tiles[y][x]` with no bounds check of its
own; Python list semantics apply. -/
def TileMap.get (tm : TileMap) (x y : ℤ) : Option Tile :=
  (pyListGet tm.tiles y).bind fun row => pyListGet row x

/-- `TileMap.in_bounds(x, y)`. -/
def TileMap.in_bounds (tm : TileMap) (x y : ℤ) : Bool :=
  decide (0 ≤ x ∧ x < tm.width ∧ 0 ≤ y ∧ y < tm.height)

/-- Total accessor for coordinates already known to be in bounds of a
well-formed grid (the `self.tiles[y][x]` reads done after an
`in_bounds` test). -/
def TileMap.tileAt (tm : TileMap) (x y : ℕ) : Tile :=
  (tm.tiles.getD y []).getD x defaultTile

/-- The block kinds treated as obstructions by `is_walkable`. -/
def obstructing (b : Option String) : Bool :=
  b == some "wood_block" || b == some "stone_block" || b == some "campfire"

/-- `TileMap.is_walkable(x, y)`. -/
def TileMap.is_walkable (tm : TileMap) (x y : ℤ) : Bool :=
  if tm.in_bounds x y then
    let tile := tm.tileAt x.toNat y.toNat
    if obstructing tile.block then false else tile.walkable
  else false

def TileMap.setTile (tm : TileMap) (x y : ℕ) (t : Tile) : TileMap :=
  { tm with tiles := tm.tiles.set y ((tm.tiles.getD y []).set x t) }

/-- `TileMap.place_block(x, y, block)`: checks `in_bounds` and the tile's
underlying `walkable` flag (not `is_walkable`), then sets the block and
clears any resource. -/
def TileMap.place_block (tm : TileMap) (x y : ℤ) (block : String) :
    Bool × TileMap :=
  if tm.in_bounds x y = false then (false, tm)
  else
    let tile := tm.tileAt x.toNat y.toNat
    if tile.walkable = false then (false, tm)
    else (true, tm.setTile x.toNat y.toNat
      { tile with block := some block, resource := none })

/-- `TileMap.remove_resource(x, y)`. -/
def TileMap.remove_resource (tm : TileMap) (x y : ℤ) : TileMap :=
  if tm.in_bounds x y then
    let tile := tm.tileAt x.toNat y.toNat
    tm.setTile x.toNat y.toNat { tile with resource := none }
  else tm

theorem pyListGet_nonneg (l : List α) (i : ℤ) (h : 0 ≤ i) :
    pyListGet l i = l.get? i.toNat := by
  unfold pyListGet; rw [if_pos h]

theorem pyListGet_neg (l : List α) (i : ℤ) (h1 : -(l.length : ℤ) ≤ i)
    (h2 : i < 0) : pyListGet l i = l.get? (i + l.length).toNat := by
  unfold pyListGet
  rw [if_neg (by omega), if_pos h1]

theorem pyListGet_norm (l : List α) (i : ℤ) (h1 : -(l.length : ℤ) ≤ i)
    (h2 : i < l.length) :
    pyListGet l i = l.get? (if i < 0 then i + l.length else i).toNat ∧
    (if i < 0 then i + l.length else i).toNat < l.length := by
  by_cases hi : i < 0
  · rw [if_pos hi]
    exact ⟨pyListGet_neg l i h1 hi, by omega⟩
  · rw [if_neg hi]
    exact ⟨pyListGet_nonneg l i (by omega), by omega⟩

/-- C10: `TileMap.get` does no bounds checking of its own.  For a
well-formed grid, any coordinate with a negative component still inside
Python's negative-index range is out of bounds for `in_bounds`, yet `get`
returns (without error) the tile at the coordinate wrapped to the
opposite edge of the grid — the same tile `get` yields at the normalized
in-bounds coordinate. -/
theorem tileMap_get_wraps_negative_indices (tm : TileMap) (hwf : tm.wf)
    (x y : ℤ)
    (hx1 : -(tm.width : ℤ) ≤ x) (hx2 : x < (tm.width : ℤ))
    (hy1 : -(tm.height : ℤ) ≤ y) (hy2 : y < (tm.height : ℤ))
    (hneg : x < 0 ∨ y < 0) :
    tm.in_bounds x y = false ∧
    (tm.get x y).isSome = true ∧
    tm.get x y = tm.get (if x < 0 then x + tm.width else x)
      (if y < 0 then y + tm.height else y) ∧
    tm.in_bounds (if x < 0 then x + tm.width else x)
      (if y < 0 then y + tm.height else y) = true := by
  obtain ⟨hlen, hrows⟩ := hwf
  have hlenZ : (tm.tiles.length : ℤ) = tm.height := by exact_mod_cast congrArg Nat.cast hlen
  obtain ⟨hgy, hylt⟩ := pyListGet_norm tm.tiles y (by omega) (by omega)
  have hrow : tm.tiles.get? (if y < 0 then y + tm.tiles.length else y).toNat =
      some (tm.tiles.get ⟨(if y < 0 then y + tm.tiles.length else y).toNat, hylt⟩) :=
    List.get?_eq_get hylt
  set row : List Tile :=
    tm.tiles.get ⟨(if y < 0 then y + tm.tiles.length else y).toNat, hylt⟩ with hrowdef
  have hrowlen : row.length = tm.width := hrows row (List.get_mem _ _ hylt)
  have hrowlenZ : (row.length : ℤ) = tm.width := by exact_mod_cast congrArg Nat.cast hrowlen
  obtain ⟨hgx, hxlt⟩ := pyListGet_norm row x (by omega) (by omega)
  have hget : tm.get x y = row.get? (if x < 0 then x + row.length else x).toNat := by
    unfold TileMap.get
    rw [hgy, hrow, Option.some_bind' row, hgx]
  refine ⟨?_, ?_, ?_, ?_⟩
  · simp only [TileMap.in_bounds, decide_eq_false_iff_not]
    omega
  · rw [hget, List.get?_eq_get hxlt]
    rfl
  · rw [hget]
    unfold TileMap.get
    have h0x : (0 : ℤ) ≤ if x < 0 then x + (tm.width : ℤ) else x := by
      split <;> omega
    have h0y : (0 : ℤ) ≤ if y < 0 then y + (tm.height : ℤ) else y := by
      split <;> omega
    have hyidx : (if y < 0 then y + (tm.height : ℤ) else y).toNat =
        (if y < 0 then y + (tm.tiles.length : ℤ) else y).toNat := by
      split <;> omega
    rw [pyListGet_nonneg _ _ h0y, hyidx, hrow, Option.some_bind' row,
      pyListGet_nonneg _ _ h0x]
    congr 1
    split <;> omega
  · simp only [TileMap.in_bounds, decide_eq_true_eq]
    refine ⟨by split <;> omega, by split <;> omega, by split <;> omega, by split <;> omega⟩

/-- Witness for C10 on a concrete 2×2 grid at `(x, y) = (-1, 0)`. -/
theorem tileMap_get_wraps_negative_indices_witness :
    let tm : TileMap :=
      { width := 2, height := 2,
        tiles := [[{ terrain := "grass" }, { terrain := "sand" }],
                  [{ terrain := "dirt" }, { terrain := "rock" }]] }
    tm.in_bounds (-1) 0 = false ∧
    (tm.get (-1) 0).isSome = true ∧
    tm.get (-1) 0 = tm.get (if (-1 : ℤ) < 0 then -1 + tm.width else -1)
      (if (0 : ℤ) < 0 then 0 + tm.height else 0) ∧
    tm.in_bounds (if (-1 : ℤ) < 0 then -1 + tm.width else -1)
      (if (0 : ℤ) < 0 then 0 + tm.height else 0) = true :=
  tileMap_get_wraps_negative_indices _ (by decide) (-1) 0
    (by decide) (by decide) (by decide) (by decide) (Or.inl (by decide))

theorem is_walkable_iff (tm : TileMap) (x y : ℤ) :
    tm.is_walkable x y = true ↔
      tm.in_bounds x y = true ∧
      obstructing (tm.tileAt x.toNat y.toNat).block = false ∧
      (tm.tileAt x.toNat y.toNat).walkable = true := by
  unfold TileMap.is_walkable
  cases hb : tm.in_bounds x y <;>
    cases hob : obstructing (tm.tileAt x.toNat y.toNat).block <;>
      simp [hb, hob]

theorem tileAt_setTile_self (tm : TileMap) (x y : ℕ)
    (hy : y < tm.tiles.length) (hx : x < (tm.tiles.getD y []).length)
    (t : Tile) : (tm.setTile x y t).tileAt x y = t := by
  unfold TileMap.setTile TileMap.tileAt
  dsimp only
  have h1 : (tm.tiles.set y ((tm.tiles.getD y []).set x t)).getD y [] =
      (tm.tiles.getD y []).set x t := by
    rw [List.getD_eq_getD_get?, List.get?_eq_getElem?,
      List.getElem?_set_eq_of_lt _ hy, Option.getD_some]
  rw [h1, List.getD_eq_getD_get?, List.get?_eq_getElem?,
    List.getElem?_set_eq_of_lt _ (by simpa using hx), Option.getD_some]

theorem getD_row_length (tm : TileMap)
    (hrows : ∀ row ∈ tm.tiles, row.length = tm.width) (n : ℕ)
    (hn : n < tm.tiles.length) :
    (tm.tiles.getD n []).length = tm.width := by
  rw [List.getD_eq_getElem _ _ hn]
  exact hrows _ (List.getElem_mem hn)

theorem place_block_fail (tm : TileMap) (x y : ℤ) (kind : String)
    (h : tm.in_bounds x y = false ∨ (tm.tileAt x.toNat y.toNat).walkable = false) :
    tm.place_block x y kind = (false, tm) := by
  unfold TileMap.place_block
  rcases h with h | h
  · rw [if_pos h]
  · by_cases hb : tm.in_bounds x y = false
    · rw [if_pos hb]
    · rw [if_neg hb]
      dsimp only
      rw [if_pos h]

theorem place_block_succeed (tm : TileMap) (x y : ℤ) (kind : String)
    (hb : tm.in_bounds x y = true)
    (hw : (tm.tileAt x.toNat y.toNat).walkable = true) :
    tm.place_block x y kind = (true, tm.setTile x.toNat y.toNat
      { tm.tileAt x.toNat y.toNat with block := some kind, resource := none }) := by
  unfold TileMap.place_block
  rw [if_neg (by simp [hb]), if_neg (by simp [hw])]

/-- C3 (amended): `place_block` checks `in_bounds` and the tile's stored
`walkable` flag, not `is_walkable`.  It fails without mutation exactly
when the coordinate is out of bounds or the underlying flag is false; on
a tile whose flag is true it succeeds, installs the block, clears the
resource, and an obstructing block kind then makes `is_walkable` false.
In particular the claim's success direction holds: if `is_walkable` is
true beforehand the call succeeds and leaves the tile unwalkable for
every obstructing kind. -/
theorem place_block_spec (tm : TileMap) (hwf : tm.wf) (x y : ℤ)
    (kind : String) :
    (tm.in_bounds x y = false ∨ (tm.tileAt x.toNat y.toNat).walkable = false →
      tm.place_block x y kind = (false, tm)) ∧
    (tm.in_bounds x y = true → (tm.tileAt x.toNat y.toNat).walkable = true →
      (tm.place_block x y kind).1 = true ∧
      ((tm.place_block x y kind).2.tileAt x.toNat y.toNat).block = some kind ∧
      ((tm.place_block x y kind).2.tileAt x.toNat y.toNat).resource = none ∧
      (obstructing (some kind) = true →
        (tm.place_block x y kind).2.is_walkable x y = false)) ∧
    (tm.is_walkable x y = true →
      (tm.place_block x y kind).1 = true ∧
      (obstructing (some kind) = true →
        (tm.place_block x y kind).2.is_walkable x y = false)) := by
  obtain ⟨hlen, hrows⟩ := hwf
  have hsucc : ∀ (hb : tm.in_bounds x y = true)
      (hw : (tm.tileAt x.toNat y.toNat).walkable = true),
      (tm.place_block x y kind).1 = true ∧
      ((tm.place_block x y kind).2.tileAt x.toNat y.toNat).block = some kind ∧
      ((tm.place_block x y kind).2.tileAt x.toNat y.toNat).resource = none ∧
      (obstructing (some kind) = true →
        (tm.place_block x y kind).2.is_walkable x y = false) := by
    intro hb hw
    have hbspec := hb
    simp only [TileMap.in_bounds, decide_eq_true_eq] at hbspec
    have hylt : y.toNat < tm.tiles.length := by omega
    have hxlt : x.toNat < (tm.tiles.getD y.toNat []).length := by
      rw [getD_row_length tm hrows y.toNat hylt]; omega
    rw [place_block_succeed tm x y kind hb hw]
    set nt : Tile := { tm.tileAt x.toNat y.toNat with block := some kind, resource := none } with hnt
    have htile := tileAt_setTile_self tm x.toNat y.toNat hylt hxlt nt
    refine ⟨rfl, by rw [htile], by rw [htile], ?_⟩
    intro hobs
    unfold TileMap.is_walkable
    rw [if_pos (show (tm.setTile x.toNat y.toNat nt).in_bounds x y = true from hb)]
    dsimp only
    rw [htile, if_pos (show obstructing nt.block = true from hobs)]
  refine ⟨place_block_fail tm x y kind, hsucc, ?_⟩
  intro hwalk
  obtain ⟨hb, _, hw⟩ := (is_walkable_iff tm x y).mp hwalk
  obtain ⟨h1, _, _, h4⟩ := hsucc hb hw
  exact ⟨h1, h4⟩

/-- Witness for C3's amended theorem on a fresh walkable 1×1 grid. -/
theorem place_block_spec_witness :
    (TileMap.init 1 1).wf ∧
    ((TileMap.init 1 1).in_bounds 0 0 = false ∨
        ((TileMap.init 1 1).tileAt 0 0).walkable = false →
      (TileMap.init 1 1).place_block 0 0 "wood_block" = (false, TileMap.init 1 1)) ∧
    ((TileMap.init 1 1).in_bounds 0 0 = true →
        ((TileMap.init 1 1).tileAt 0 0).walkable = true →
      ((TileMap.init 1 1).place_block 0 0 "wood_block").1 = true ∧
      (((TileMap.init 1 1).place_block 0 0 "wood_block").2.tileAt 0 0).block = some "wood_block" ∧
      (((TileMap.init 1 1).place_block 0 0 "wood_block").2.tileAt 0 0).resource = none ∧
      (obstructing (some "wood_block") = true →
        ((TileMap.init 1 1).place_block 0 0 "wood_block").2.is_walkable 0 0 = false)) ∧
    ((TileMap.init 1 1).is_walkable 0 0 = true →
      ((TileMap.init 1 1).place_block 0 0 "wood_block").1 = true ∧
      (obstructing (some "wood_block") = true →
        ((TileMap.init 1 1).place_block 0 0 "wood_block").2.is_walkable 0 0 = false)) :=
  ⟨TileMap.init_wf 1 1, place_block_spec _ (TileMap.init_wf 1 1) 0 0 "wood_block"⟩

/-- A 1×1 grid whose single tile is walkable terrain already carrying a
placed wood block, so `is_walkable` is false while the stored `walkable`
flag is still true. -/
def blockedTM : TileMap :=
  { width := 1, height := 1,
    tiles := [[{ terrain := "grass", walkable := true, resource := none,
                 block := some "wood_block" }]] }

/-- C3 counterexample: on `blockedTM`, `is_walkable(0,0)` is false before
the call, yet `place_block(0, 0, "stone_block")` returns true and mutates
the grid — refuting the claim's failure direction. -/
theorem place_block_counterexample :
    blockedTM.is_walkable 0 0 = false ∧
    (blockedTM.place_block 0 0 "stone_block").1 = true ∧
    (blockedTM.place_block 0 0 "stone_block").2 ≠ blockedTM := by
  refine ⟨rfl, rfl, ?_⟩
  decide

/-! ## Python dict helpers

Python dicts are ordered maps with unique keys; we model the small
dictionaries used by the inventories as ordered association lists.
`dictSet` overwrites in place, `dictPop` is `dict.pop(k, None)`. -/

def dictGet {β : Type} (d : List (String × β)) (k : String) (v0 : β) : β :=
  match d.find? (fun p => p.1 == k) with
  | some p => p.2
  | none => v0

/-- `d.get(k)` / `d[k]` as an optional lookup. -/
def dictFind {β : Type} (d : List (String × β)) (k : String) : Option β :=
  (d.find? (fun p => p.1 == k)).map Prod.snd

def dictSet {β : Type} (d : List (String × β)) (k : String) (v : β) :
    List (String × β) :=
  match d with
  | [] => [(k, v)]
  | p :: rest => if p.1 == k then (k, v) :: rest else p :: dictSet rest k v

def dictPop {β : Type} (d : List (String × β)) (k : String) :
    List (String × β) :=
  match d with
  | [] => []
  | p :: rest => if p.1 == k then rest else p :: dictPop rest k

theorem dictFind_dictSet_self {β : Type} (d : List (String × β))
    (k : String) (v : β) : dictFind (dictSet d k v) k = some v := by
  induction d with
  | nil => simp [dictFind, dictSet, List.find?]
  | cons p rest ih =>
    cases h : (p.1 == k) with
    | true => simp [dictFind, dictSet, h, List.find?]
    | false => simpa [dictFind, dictSet, h, List.find?] using ih

theorem dictGet_dictSet_self (d : List (String × ℤ)) (k : String)
    (v v0 : ℤ) : dictGet (dictSet d k v) k v0 = v := by
  induction d with
  | nil => simp [dictGet, dictSet, List.find?]
  | cons p rest ih =>
    cases h : (p.1 == k) with
    | true => simp [dictGet, dictSet, h, List.find?]
    | false => simpa [dictGet, dictSet, h, List.find?] using ih

theorem mem_dictPop {β : Type} (d : List (String × β)) (k : String)
    (hnd : (d.map Prod.fst).Nodup) (p : String × β) (hp : p ∈ dictPop d k) :
    p ∈ d ∧ p.1 ≠ k := by
  induction d with
  | nil => simp [dictPop] at hp
  | cons q rest ih =>
    simp only [List.map_cons, List.nodup_cons] at hnd
    cases h : (q.1 == k) with
    | true =>
      rw [dictPop, if_pos h] at hp
      have hqk : q.1 = k := by simpa using h
      refine ⟨List.mem_cons_of_mem _ hp, ?_⟩
      intro hpk
      exact hnd.1 (hqk ▸ hpk ▸ List.mem_map_of_mem Prod.fst hp)
    | false =>
      rw [dictPop, if_neg (by simp [h])] at hp
      rcases List.mem_cons.mp hp with hq | hq
      · subst hq
        exact ⟨List.mem_cons_self _ _, by simpa using h⟩
      · obtain ⟨h1, h2⟩ := ih hnd.2 hq
        exact ⟨List.mem_cons_of_mem _ h1, h2⟩

/-! ## Inventories

Two variants exist in the source: `src/src/gameplay/inventory.py`
(`Inventory`, clamping adds at `MAX_STACK_SIZE = 99`) and
`src/prismalia/inventory.py` (`PInventory` here; it has a `capacity`
field, default 32, which `add` never consults). -/

def MAX_STACK_SIZE : ℤ := 99

structure Inventory where
  -- the Python field is `stacks`; that identifier is a reserved token
  -- once Mathlib is imported, hence the trailing prime
  stacks' : List (String × ℤ) := []
  deriving Repr, DecidableEq

def Inventory.amount (inv : Inventory) (resource : String) : ℤ :=
  dictGet inv.stacks' resource 0

/-- `Inventory.add`: `stacks[resource] = min(MAX_STACK_SIZE, current + amount)`. -/
def Inventory.add (inv : Inventory) (resource : String) (amount : ℤ) :
    Inventory :=
  let current := dictGet inv.stacks' resource 0
  { stacks' := dictSet inv.stacks' resource (min MAX_STACK_SIZE (current + amount)) }

/-- `Inventory.remove`. -/
def Inventory.remove (inv : Inventory) (resource : String) (amount : ℤ) :
    Bool × Inventory :=
  let current := dictGet inv.stacks' resource 0
  if current < amount then (false, inv)
  else
    let new_amount := current - amount
    if new_amount ≤ 0 then (true, { stacks' := dictPop inv.stacks' resource })
    else (true, { stacks' := dictSet inv.stacks' resource new_amount })

/-- Python dict invariant: keys are unique. -/
def Inventory.wfKeys (inv : Inventory) : Prop :=
  (inv.stacks'.map Prod.fst).Nodup

instance (inv : Inventory) : Decidable inv.wfKeys := by
  unfold Inventory.wfKeys; exact List.nodupDecidable _

structure PInventory where
  slots : List (String × ℤ) := []
  capacity : ℤ := 32
  deriving Repr, DecidableEq

/-- `prismalia.Inventory.add`: ignores non-positive amounts and adds with
no clamping (`capacity` is never read). -/
def PInventory.add (inv : PInventory) (resource : String) (amount : ℤ) :
    PInventory :=
  if amount ≤ 0 then inv
  else
    let current := dictGet inv.slots resource 0
    { inv with slots := dictSet inv.slots resource (current + amount) }

/-- `prismalia.Inventory.remove`. -/
def PInventory.remove (inv : PInventory) (resource : String) (amount : ℤ) :
    Bool × PInventory :=
  let current := dictGet inv.slots resource 0
  if current < amount then (false, inv)
  else
    let new_amount := current - amount
    if new_amount ≤ 0 then (true, { inv with slots := dictPop inv.slots resource })
    else (true, { inv with slots := dictSet inv.slots resource new_amount })

/-- C9 (amended): the gameplay `Inventory.add` clamps stored counts at
`MAX_STACK_SIZE`; in both inventory variants `remove` with an amount
greater than the stored count returns false and leaves the inventory
unchanged, and a successful remove that brings the count to zero deletes
the entry; the prismalia variant's `add`, however, does not clamp —
starting empty, adding 40 stores 40, above its `capacity` of 32. -/
theorem inventory_spec :
    (∀ (inv : Inventory) (r : String) (amt : ℤ),
      (inv.add r amt).amount r ≤ MAX_STACK_SIZE) ∧
    (∀ (inv : Inventory) (r : String) (amt : ℤ),
      inv.amount r < amt → inv.remove r amt = (false, inv)) ∧
    (∀ (inv : Inventory) (r : String) (amt : ℤ), inv.wfKeys → 0 < amt →
      inv.amount r = amt →
      (inv.remove r amt).1 = true ∧
      ∀ p ∈ (inv.remove r amt).2.stacks', p.1 ≠ r) ∧
    (∀ (inv : PInventory) (r : String) (amt : ℤ),
      dictGet inv.slots r 0 < amt → inv.remove r amt = (false, inv)) ∧
    (∀ (inv : PInventory) (r : String) (amt : ℤ),
      (inv.slots.map Prod.fst).Nodup → 0 < amt →
      dictGet inv.slots r 0 = amt →
      (inv.remove r amt).1 = true ∧
      ∀ p ∈ (inv.remove r amt).2.slots, p.1 ≠ r) ∧
    ((PInventory.add {} "wood" 40).slots = [("wood", 40)] ∧
      (32 : ℤ) < dictGet (PInventory.add {} "wood" 40).slots "wood" 0) := by
  refine ⟨?_, ?_, ?_, ?_, ?_, by decide⟩
  · intro inv r amt
    unfold Inventory.add Inventory.amount
    dsimp only
    rw [dictGet_dictSet_self]
    exact min_le_left _ _
  · intro inv r amt h
    unfold Inventory.remove
    dsimp only
    rw [if_pos (show dictGet inv.stacks' r 0 < amt from h)]
  · intro inv r amt hwf hpos hamt
    unfold Inventory.remove
    dsimp only
    have hq : dictGet inv.stacks' r 0 = amt := hamt
    rw [hq, if_neg (lt_irrefl amt), if_pos (by omega : amt - amt ≤ 0)]
    exact ⟨rfl, fun p hp => (mem_dictPop _ _ hwf p hp).2⟩
  · intro inv r amt h
    unfold PInventory.remove
    dsimp only
    rw [if_pos h]
  · intro inv r amt hwf hpos hamt
    unfold PInventory.remove
    dsimp only
    rw [hamt, if_neg (lt_irrefl amt), if_pos (by omega : amt - amt ≤ 0)]
    exact ⟨rfl, fun p hp => (mem_dictPop _ _ hwf p hp).2⟩

/-- Witness for C9's amended theorem at a concrete inventory. -/
theorem inventory_spec_witness :
    (Inventory.mk [("wood", 2)]).wfKeys ∧ (0 : ℤ) < 2 ∧
    (Inventory.mk [("wood", 2)]).amount "wood" = 2 ∧
    (((Inventory.mk [("wood", 2)]).remove "wood" 2).1 = true ∧
      ∀ p ∈ ((Inventory.mk [("wood", 2)]).remove "wood" 2).2.stacks',
        p.1 ≠ "wood") ∧
    (Inventory.mk [("wood", 2)]).amount "wood" < 5 ∧
    (Inventory.mk [("wood", 2)]).remove "wood" 5 =
      (false, Inventory.mk [("wood", 2)]) :=
  ⟨by decide, by decide, by decide,
    inventory_spec.2.2.1 (Inventory.mk [("wood", 2)]) "wood" 2
      (by decide) (by decide) (by decide),
    by decide,
    inventory_spec.2.1 (Inventory.mk [("wood", 2)]) "wood" 5 (by decide)⟩

/-- C9 counterexample: the prismalia `Inventory.add` raises a stored
count to 40 although the inventory's maximum stack size (`capacity`)
is 32 — it performs no clamping, refuting the claim for that variant. -/
theorem pinventory_add_not_clamped :
    (0 : ℤ) < 40 ∧ ({} : PInventory).capacity = 32 ∧
    dictGet (PInventory.add {} "wood" 40).slots "wood" 0 = 40 ∧
    ¬ dictGet (PInventory.add {} "wood" 40).slots "wood" 0 ≤
        ({} : PInventory).capacity := by decide

/-! ## Entity movement (`src/src/engine/entities.py`)

`Entity.move_towards(target, speed, dt)` computes
`distance = (target - position).length()`, snaps to the target when
`distance < 1e-3`, otherwise advances by `min(distance, speed*dt)` along
the direction — and in both cases returns `distance`, the length
measured *before* the move.  `sq` stands for the square root inside
`Vector2.length` / `scale_to_length`. -/

/-- Squared Euclidean distance. -/
def dist2 (p q : ℚ × ℚ) : ℚ := (q.1 - p.1)^2 + (q.2 - p.2)^2

/-- `Entity.move_towards`: returns (new position, Python return value). -/
def move_towards (sq : ℚ → ℚ) (position target : ℚ × ℚ)
    (speed dt : ℚ) : (ℚ × ℚ) × ℚ :=
  let direction := (target.1 - position.1, target.2 - position.2)
  let distance := sq (direction.1 ^ 2 + direction.2 ^ 2)
  if distance < 1/1000 then (target, distance)
  else
    let len := min distance (speed * dt)
    ((position.1 + direction.1 * (len / distance),
      position.2 + direction.2 * (len / distance)), distance)

/-- C7 (amended): `move_towards` never overshoots the target and moves
at most `max(speed*dt, 1e-3)`, but its return value is the distance from
the *pre*-move position to the target.  Since the move never increases
the distance, a caller's arrival test `returned <= eps` still guarantees
the post-move position is within `eps` of the target. -/
theorem move_towards_spec (sq : ℚ → ℚ) (position target : ℚ × ℚ)
    (speed dt : ℚ)
    (hsq0 : 0 ≤ sq (dist2 position target))
    (hsq : sq (dist2 position target) ^ 2 = dist2 position target)
    (hs : 0 < speed) (hd : 0 < dt) :
    (move_towards sq position target speed dt).2 =
      sq (dist2 position target) ∧
    dist2 (move_towards sq position target speed dt).1 target =
      (if sq (dist2 position target) < 1/1000 then 0
       else (sq (dist2 position target) -
         min (sq (dist2 position target)) (speed * dt)) ^ 2) ∧
    dist2 (move_towards sq position target speed dt).1 target ≤
      (move_towards sq position target speed dt).2 ^ 2 ∧
    dist2 position (move_towards sq position target speed dt).1 ≤
      max (speed * dt) (1/1000) ^ 2 ∧
    ∀ ε : ℚ, 0 ≤ ε → (move_towards sq position target speed dt).2 ≤ ε →
      dist2 (move_towards sq position target speed dt).1 target ≤ ε ^ 2 := by
  obtain ⟨px, py⟩ := position
  obtain ⟨tx, ty⟩ := target
  have hdir : (tx - px) ^ 2 + (ty - py) ^ 2 = dist2 (px, py) (tx, ty) := rfl
  set D := sq (dist2 (px, py) (tx, ty)) with hD
  unfold move_towards
  dsimp only
  rw [hdir, ← hD]
  by_cases hsnap : D < 1/1000
  · rw [if_pos hsnap, if_pos hsnap]
    have hz : dist2 (tx, ty) (tx, ty) = 0 := by unfold dist2; ring
    refine ⟨rfl, hz, by rw [hz]; positivity, ?_, fun ε _ _ => by rw [hz]; positivity⟩
    have : dist2 (px, py) (tx, ty) ≤ (1/1000) ^ 2 := by
      rw [← hsq]
      have hle : D ≤ 1/1000 := le_of_lt hsnap
      exact pow_le_pow_left hsq0 hle 2
    calc dist2 (px, py) (tx, ty) ≤ (1/1000) ^ 2 := this
      _ ≤ max (speed * dt) (1/1000) ^ 2 := by
          have h1 : (0 : ℚ) ≤ 1/1000 := by norm_num
          exact pow_le_pow_left h1 (le_max_right _ _) 2
  · rw [if_neg hsnap, if_neg hsnap]
    have hDpos : 0 < D := lt_of_lt_of_le (by norm_num) (le_of_not_lt hsnap)
    have hDne : D ≠ 0 := ne_of_gt hDpos
    set L := min D (speed * dt) with hL
    have hL0 : 0 ≤ L := le_min (le_of_lt hDpos) (by positivity)
    have hLD : L ≤ D := min_le_left _ _
    have hpost : dist2 (px + (tx - px) * (L / D), py + (ty - py) * (L / D))
        (tx, ty) = (D - L) ^ 2 := by
      have hexp : dist2 (px + (tx - px) * (L / D), py + (ty - py) * (L / D))
          (tx, ty) * D ^ 2 = dist2 (px, py) (tx, ty) * (D - L) ^ 2 := by
        unfold dist2
        field_simp
        ring
      rw [← hsq] at hexp
      have h2 : dist2 (px + (tx - px) * (L / D), py + (ty - py) * (L / D))
          (tx, ty) * D ^ 2 = (D - L) ^ 2 * D ^ 2 := by
        rw [hexp]; ring
      exact mul_right_cancel₀ (pow_ne_zero 2 hDne) h2
    have hmove : dist2 (px, py) (px + (tx - px) * (L / D), py + (ty - py) * (L / D))
        = L ^ 2 := by
      have hexp : dist2 (px, py) (px + (tx - px) * (L / D), py + (ty - py) * (L / D))
          * D ^ 2 = dist2 (px, py) (tx, ty) * L ^ 2 := by
        unfold dist2
        field_simp
        ring
      rw [← hsq] at hexp
      have h2 : dist2 (px, py) (px + (tx - px) * (L / D), py + (ty - py) * (L / D))
          * D ^ 2 = L ^ 2 * D ^ 2 := by
        rw [hexp]; ring
      exact mul_right_cancel₀ (pow_ne_zero 2 hDne) h2
    refine ⟨rfl, hpost, ?_, ?_, ?_⟩
    · rw [hpost]
      exact pow_le_pow_left (by linarith) (by linarith) 2
    · rw [hmove]
      have h1 : L ≤ max (speed * dt) (1/1000) :=
        le_trans (min_le_right _ _) (le_max_left _ _)
      exact pow_le_pow_left hL0 h1 2
    · intro ε hε hret
      rw [hpost]
      have h1 : D - L ≤ ε := by linarith
      exact pow_le_pow_left (by linarith) h1 2

theorem sqrtQ_25 : sqrtQ 25 = 5 := by
  have h1 : ((25 : ℚ)).num = 25 := by norm_num
  have h2 : ((25 : ℚ)).den = 1 := by norm_num
  rw [sqrtQ, if_neg (by norm_num), h1, h2]
  rw [(by decide : natSqrt (Int.toNat 25) = 5), (by decide : natSqrt 1 = 1)]
  norm_num

theorem sqrtQ_inv_4000000 : sqrtQ (1/4000000) = 1/2000 := by
  have h1 : ((1 : ℚ)/4000000).num = 1 := by norm_num
  have h2 : ((1 : ℚ)/4000000).den = 4000000 := by norm_num
  rw [sqrtQ, if_neg (by norm_num), h1, h2]
  rw [(by decide : natSqrt (Int.toNat 1) = 1),
    (by decide : natSqrt 4000000 = 2000)]
  norm_num

theorem dist2_concrete_25 : dist2 (0, 0) (3, 4) = 25 := by
  norm_num [dist2]

/-- Witness for C7's amended theorem: position (0,0), target (3,4),
speed 1, dt 1, where the distance is exactly 5. -/
theorem move_towards_spec_witness :
    (0 ≤ sqrtQ (dist2 (0, 0) (3, 4)) ∧
     sqrtQ (dist2 (0, 0) (3, 4)) ^ 2 = dist2 (0, 0) (3, 4) ∧
     (0 : ℚ) < 1 ∧ (0 : ℚ) < 1) ∧
    ((move_towards sqrtQ (0, 0) (3, 4) 1 1).2 =
      sqrtQ (dist2 (0, 0) (3, 4)) ∧
    dist2 (move_towards sqrtQ (0, 0) (3, 4) 1 1).1 (3, 4) =
      (if sqrtQ (dist2 (0, 0) (3, 4)) < 1/1000 then 0
       else (sqrtQ (dist2 (0, 0) (3, 4)) -
         min (sqrtQ (dist2 (0, 0) (3, 4))) (1 * 1)) ^ 2) ∧
    dist2 (move_towards sqrtQ (0, 0) (3, 4) 1 1).1 (3, 4) ≤
      (move_towards sqrtQ (0, 0) (3, 4) 1 1).2 ^ 2 ∧
    dist2 (0, 0) (move_towards sqrtQ (0, 0) (3, 4) 1 1).1 ≤
      max (1 * 1) (1/1000) ^ 2 ∧
    ∀ ε : ℚ, 0 ≤ ε → (move_towards sqrtQ (0, 0) (3, 4) 1 1).2 ≤ ε →
      dist2 (move_towards sqrtQ (0, 0) (3, 4) 1 1).1 (3, 4) ≤ ε ^ 2) :=
  ⟨⟨by rw [dist2_concrete_25, sqrtQ_25]; norm_num,
    by rw [dist2_concrete_25, sqrtQ_25]; norm_num,
    by norm_num, by norm_num⟩,
    move_towards_spec sqrtQ (0, 0) (3, 4) 1 1
      (by rw [dist2_concrete_25, sqrtQ_25]; norm_num)
      (by rw [dist2_concrete_25, sqrtQ_25]; norm_num)
      (by norm_num) (by norm_num)⟩

/-- C7 counterexample: at position (0,0), target (1/2000, 0), speed 1,
dt 1e-6, the snap branch fires: the entity jumps all the way to the
target — a move of 1/2000, far more than `speed*dt = 1e-6` — and the
call returns 1/2000, the pre-move distance, although the post-move
distance is 0. -/
theorem move_towards_counterexample :
    (move_towards sqrtQ (0, 0) (1/2000, 0) 1 (1/1000000)).1 = (1/2000, 0) ∧
    (move_towards sqrtQ (0, 0) (1/2000, 0) 1 (1/1000000)).2 = 1/2000 ∧
    dist2 (move_towards sqrtQ (0, 0) (1/2000, 0) 1 (1/1000000)).1
      (1/2000, 0) = 0 ∧
    (move_towards sqrtQ (0, 0) (1/2000, 0) 1 (1/1000000)).2 ≠ 0 ∧
    dist2 (0, 0) (move_towards sqrtQ (0, 0) (1/2000, 0) 1 (1/1000000)).1 >
      (1 * (1/1000000)) ^ 2 := by
  have hrun : move_towards sqrtQ (0, 0) (1/2000, 0) 1 (1/1000000) =
      ((1/2000, 0), 1/2000) := by
    unfold move_towards
    dsimp only
    have harg : ((1/2000 : ℚ) - 0) ^ 2 + ((0 : ℚ) - 0) ^ 2 = 1/4000000 := by
      norm_num
    rw [harg, sqrtQ_inv_4000000, if_pos (by norm_num : (1/2000 : ℚ) < 1/1000)]
  rw [hrun]
  refine ⟨rfl, rfl, by norm_num [dist2], by norm_num, by norm_num [dist2]⟩

/-! ## Terrain classification

Two classifiers exist in the source: the engine one
(`TileMap._terrain_from_values`, `src/src/engine/tilemap.py:174-191`) and
the prismalia one (`TileMap._pick_terrain` plus the walkable derivation in
`generate`, `src/prismalia/tilemap.py:77-103`). -/

/-- `TileMap._terrain_from_values(height, moisture)`. -/
def terrain_from_values (height moisture : ℚ) : String × Bool :=
  let water_level : ℚ := 0.32
  let beach_level : ℚ := 0.37
  let hill_level : ℚ := 0.68
  let mountain_level : ℚ := 0.82
  if height < water_level then ("water", false)
  else if height < beach_level then ("sand", true)
  else if height < hill_level then
    ((if moisture ≥ 0.45 then "grass" else "dirt"), true)
  else if height < mountain_level then
    ((if moisture ≥ 0.5 then "dirt" else "rock"), true)
  else ("rock", true)

/-- Which of the five ascending height bands of `_terrain_from_values`
fires for a given height sample. -/
def heightBand (height : ℚ) : ℕ :=
  if height < 0.32 then 0
  else if height < 0.37 then 1
  else if height < 0.68 then 2
  else if height < 0.82 then 3
  else 4

/-- Position of a returned terrain in the band order
`water < sand < {grass|dirt} < {dirt|rock} < rock`, for a fixed moisture
(`dirt` and `rock` each occur in two adjacent bands; the moisture decides
which one `_terrain_from_values` can actually produce). -/
def bandRank (moisture : ℚ) : String → ℕ
  | "water" => 0
  | "sand" => 1
  | "grass" => 2
  | "dirt" => if moisture ≥ 0.5 then 3 else 2
  | "rock" => if moisture < 0.5 then 3 else 4
  | _ => 5

/-- Rank of the terrain produced in a given band at a given moisture. -/
def rankOfBand (moisture : ℚ) (b : ℕ) : ℕ :=
  if b ≤ 2 then b else if b = 3 then 3 else if moisture < 0.5 then 3 else 4

theorem bandRank_terrain (h m : ℚ) :
    bandRank m (terrain_from_values h m).1 = rankOfBand m (heightBand h) := by
  unfold terrain_from_values heightBand rankOfBand bandRank
  dsimp only
  split_ifs <;> simp_all <;> linarith

theorem heightBand_mono (h1 h2 : ℚ) (hle : h1 ≤ h2) :
    heightBand h1 ≤ heightBand h2 := by
  unfold heightBand
  split_ifs <;> first | omega | linarith

theorem rankOfBand_mono (m : ℚ) (b1 b2 : ℕ) (hle : b1 ≤ b2) :
    rankOfBand m b1 ≤ rankOfBand m b2 := by
  unfold rankOfBand
  split_ifs <;> omega

/-- C5 (amended): for the engine classifier `_terrain_from_values`, the
returned terrain is `water` exactly when the returned walkable flag is
false, and for any fixed moisture the rank of the returned terrain in
the band order water < sand < {grass|dirt} < {dirt|rock} < rock never
decreases as the sampled height increases. -/
theorem terrain_band_spec :
    (∀ h m : ℚ, ((terrain_from_values h m).1 = "water" ↔
      (terrain_from_values h m).2 = false)) ∧
    (∀ m h1 h2 : ℚ, h1 ≤ h2 →
      bandRank m (terrain_from_values h1 m).1 ≤
        bandRank m (terrain_from_values h2 m).1) := by
  constructor
  · intro h m
    unfold terrain_from_values
    dsimp only
    split_ifs <;> simp_all
  · intro m h1 h2 hle
    rw [bandRank_terrain, bandRank_terrain]
    exact rankOfBand_mono m _ _ (heightBand_mono h1 h2 hle)

/-- Witness for C5's amended theorem at concrete heights 0.3 ≤ 0.9. -/
theorem terrain_band_spec_witness :
    ((terrain_from_values 0.2 0.5).1 = "water" ↔
      (terrain_from_values 0.2 0.5).2 = false) ∧
    (0.3 : ℚ) ≤ 0.9 ∧
    bandRank 0.5 (terrain_from_values 0.3 0.5).1 ≤
      bandRank 0.5 (terrain_from_values 0.9 0.5).1 :=
  ⟨terrain_band_spec.1 0.2 0.5, by norm_num,
    terrain_band_spec.2 0.5 0.3 0.9 (by norm_num)⟩

/-- `prismalia.TileMap._pick_terrain(x, y, height_value, moisture_value)`
with the grid dimensions used by the edge falloff. -/
def pick_terrain (width height : ℕ) (x y : ℕ)
    (height_value moisture_value : ℚ) : String :=
  let edge_distance : ℚ :=
    min (min (x : ℚ) (y : ℚ)) (min ((width : ℚ) - 1 - x) ((height : ℚ) - 1 - y))
  let max_distance : ℚ := max 1 (min (width : ℚ) (height : ℚ) / 2)
  let edge_factor := edge_distance / max_distance
  let hv := height_value - max 0 (0.4 - edge_factor) * 0.6
  if hv < 0.26 then "water"
  else if hv < 0.32 then "sand"
  else if hv < 0.6 then (if moisture_value ≥ 0.45 then "grass" else "dirt")
  else if hv < 0.78 then (if moisture_value < 0.35 then "dirt" else "grass")
  else if hv > 0.9 ∧ moisture_value > 0.65 then "grass"
  else "rock"

/-- Walkable derivation in the prismalia `generate`
(`src/prismalia/tilemap.py:77-82`): water is unwalkable, and so is rock
above height 0.85. -/
def prismalia_walkable (terrain : String) (height_value : ℚ) : Bool :=
  if terrain = "rock" ∧ height_value > 0.85 then false
  else terrain ≠ "water"

/-- C5 counterexample, on the prismalia variant the claim also cites: at
the grid centre (no edge falloff), height 0.9 with moisture 0.3 yields
rock that is not walkable although it is not water (breaking the iff),
and with moisture 0.7 raising the height from 0.8 to 0.95 moves the
returned terrain from rock down to grass (breaking band monotonicity). -/
theorem prismalia_terrain_counterexample :
    pick_terrain 10 10 5 5 0.9 0.3 = "rock" ∧
    prismalia_walkable (pick_terrain 10 10 5 5 0.9 0.3) 0.9 = false ∧
    pick_terrain 10 10 5 5 0.9 0.3 ≠ "water" ∧
    (0.8 : ℚ) ≤ 0.95 ∧
    pick_terrain 10 10 5 5 0.8 0.7 = "rock" ∧
    pick_terrain 10 10 5 5 0.95 0.7 = "grass" ∧
    bandRank 0.7 (pick_terrain 10 10 5 5 0.95 0.7) <
      bandRank 0.7 (pick_terrain 10 10 5 5 0.8 0.7) := by
  have hc : pick_terrain 10 10 5 5 0.9 0.3 = "rock" := by
    unfold pick_terrain
    norm_num
  have hr : pick_terrain 10 10 5 5 0.8 0.7 = "rock" := by
    unfold pick_terrain
    norm_num
  have hg : pick_terrain 10 10 5 5 0.95 0.7 = "grass" := by
    unfold pick_terrain
    norm_num
  refine ⟨hc, ?_, ?_, by norm_num, hr, hg, ?_⟩
  · rw [hc]
    norm_num [prismalia_walkable]
  · rw [hc]
    decide
  · rw [hr, hg]
    norm_num [bandRank]

/-! ## Resources and world state
(`src/src/gameplay/resources.py`, `src/src/gameplay/world.py`) -/

structure ResourceDefinition where
  key : String
  display_name : String
  yield_item : String
  yield_amount : ℤ
  deriving Repr, DecidableEq

/-- `RESOURCE_DEFINITIONS`; Python raises `KeyError` on a missing key,
so lookups return `Option`. -/
def RESOURCE_DEFINITIONS (r : String) : Option ResourceDefinition :=
  if r = "tree" then some ⟨"tree", "Tree", "wood", 2⟩
  else if r = "rock" then some ⟨"rock", "Rock", "stone", 2⟩
  else if r = "bush" then some ⟨"bush", "Berry Bush", "berries", 1⟩
  else none

def RESOURCE_DISPLAY_NAMES (r : String) : Option String :=
  if r = "wood" then some "Wood"
  else if r = "stone" then some "Stone"
  else if r = "berries" then some "Berries"
  else none

/-- `BUILDABLE_BLOCKS`: display name and cost list. -/
def BUILDABLE_BLOCKS (b : String) : Option (String × List (String × ℤ)) :=
  if b = "wood_block" then some ("Wood Block", [("wood", 1)])
  else if b = "stone_block" then some ("Stone Block", [("stone", 1)])
  else if b = "campfire" then some ("Campfire", [("wood", 2), ("stone", 1)])
  else none

def PLAYER_MOVE_SPEED : ℚ := 3.5
def ANIMAL_MOVE_SPEED : ℚ := 3
def PLAYER_HUNGER_DECAY : ℚ := 3
def ANIMAL_HUNGER_DECAY : ℚ := 4

structure PlayerState where
  position : ℚ × ℚ
  target_tile : ℚ × ℚ
  is_moving : Bool := false
  inventory : Inventory := {}
  hunger : ℚ := 100
  selected_block : String := "wood_block"
  deriving Repr, DecidableEq

/-- A companion command dict `{type, target, block?}`. -/
structure Command where
  ctype : String
  target : ℚ × ℚ
  block : Option String := none
  deriving Repr, DecidableEq

structure AnimalState where
  position : ℚ × ℚ
  hunger : ℚ := 100
  pending_commands : List Command := []
  active_command : Option Command := none
  deriving Repr, DecidableEq

structure WorldState where
  tilemap : TileMap
  player : PlayerState
  animal : AnimalState
  campfires : List (ℚ × ℚ) := []
  message : Option String := none
  deriving Repr, DecidableEq

/-- `World.harvest_at(x, y, recipient)`; `none` models the `KeyError`
raised when a tile carries a resource string absent from
`RESOURCE_DEFINITIONS`.  Python's `if not tile.resource` treats both
`None` and the empty string as "no resource". -/
def WorldState.harvest_at (w : WorldState) (x y : ℤ) (recipient : String) :
    Option (Bool × WorldState) :=
  if w.tilemap.in_bounds x y = false then some (false, w)
  else
    let tile := w.tilemap.tileAt x.toNat y.toNat
    match tile.resource with
    | none => some (false, w)
    | some r =>
      if r = "" then some (false, w)
      else
        match RESOURCE_DEFINITIONS r with
        | none => none
        | some defn =>
          match RESOURCE_DISPLAY_NAMES defn.yield_item with
          | none => none
          | some disp =>
            -- both recipient branches credit the player's inventory
            some (true,
              { w with
                player := { w.player with inventory :=
                      w.player.inventory.add defn.yield_item defn.yield_amount },
                tilemap := w.tilemap.setTile x.toNat y.toNat
                      { tile with resource := none },
                message := some ("Gained " ++ toString defn.yield_amount ++
                      " " ++ disp) })

/-- `World.place_block(x, y, block, actor)`. -/
def WorldState.place_block (w : WorldState) (x y : ℤ) (block : String)
    (actor : String) : Bool × WorldState :=
  match BUILDABLE_BLOCKS block with
  | none => (false, w)
  | some (display, cost) =>
    if cost.any (fun rc => w.player.inventory.amount rc.1 < rc.2) then
      (false, if actor = "player"
        then { w with message := some "Missing resources" } else w)
    else if w.tilemap.is_walkable x y = false then
      (false, if actor = "player"
        then { w with message := some "Tile not free" } else w)
    else
      let inv' := cost.foldl (fun inv rc => (Inventory.remove inv rc.1 rc.2).2)
        w.player.inventory
      let res := w.tilemap.place_block x y block
      let campfires' := if res.1 ∧ block = "campfire"
        then w.campfires ++ [((x : ℚ) + 1/2, (y : ℚ) + 1/2)] else w.campfires
      let msg := if res.1 then some ("Placed " ++ display) else w.message
      (res.1, { w with tilemap := res.2, player := { w.player with inventory := inv' }, campfires := campfires', message := msg })

theorem in_bounds_setTile (tm : TileMap) (a b : ℕ) (t : Tile) (x y : ℤ) :
    (tm.setTile a b t).in_bounds x y = tm.in_bounds x y := rfl

/-- C4: harvesting an in-bounds tile with no resource fails and leaves
the world unchanged; harvesting a tile with a (defined) resource
succeeds, credits the resource's yield to the player's inventory via
`Inventory.add`, clears the tile's resource, and an immediately repeated
harvest of the same tile fails and changes nothing. -/
theorem harvest_at_spec (w : WorldState) (hwf : w.tilemap.wf) (x y : ℤ)
    (hin : w.tilemap.in_bounds x y = true) :
    ((w.tilemap.tileAt x.toNat y.toNat).resource = none →
      w.harvest_at x y "player" = some (false, w)) ∧
    (∀ r defn disp,
      (w.tilemap.tileAt x.toNat y.toNat).resource = some r →
      RESOURCE_DEFINITIONS r = some defn →
      RESOURCE_DISPLAY_NAMES defn.yield_item = some disp →
      ∃ w', w.harvest_at x y "player" = some (true, w') ∧
        w'.player.inventory =
          w.player.inventory.add defn.yield_item defn.yield_amount ∧
        (w'.tilemap.tileAt x.toNat y.toNat).resource = none ∧
        w'.harvest_at x y "player" = some (false, w')) := by
  obtain ⟨hlen, hrows⟩ := hwf
  have hbb := hin
  simp only [TileMap.in_bounds, decide_eq_true_eq] at hbb
  have hylt : y.toNat < w.tilemap.tiles.length := by omega
  have hxlt : x.toNat < (w.tilemap.tiles.getD y.toNat []).length := by
    rw [getD_row_length w.tilemap hrows y.toNat hylt]; omega
  constructor
  · intro hres
    unfold WorldState.harvest_at
    rw [if_neg (by simp [hin])]
    dsimp only
    rw [hres]
  · intro r defn disp hres hdef hdisp
    have hrne : ¬ r = "" := by
      intro he
      rw [he] at hdef
      simp [RESOURCE_DEFINITIONS] at hdef
    unfold WorldState.harvest_at
    rw [if_neg (by simp [hin])]
    dsimp only
    rw [hres]
    dsimp only
    rw [if_neg hrne, hdef]
    dsimp only
    rw [hdisp]
    refine ⟨_, rfl, rfl, ?_, ?_⟩
    · dsimp only
      rw [tileAt_setTile_self w.tilemap x.toNat y.toNat hylt hxlt]
    · dsimp only
      rw [in_bounds_setTile, if_neg (by simp [hin]),
        tileAt_setTile_self w.tilemap x.toNat y.toNat hylt hxlt]

/-- A 1×1 world whose single tile carries a berry bush. -/
def harvestTM : TileMap :=
  { width := 1, height := 1,
    tiles := [[{ terrain := "grass", walkable := true,
                 resource := some "bush", block := none }]] }

def harvestW : WorldState :=
  { tilemap := harvestTM,
    player := { position := (1/2, 1/2), target_tile := (1/2, 1/2) },
    animal := { position := (1/2, 1/2) } }

/-- Witness for C4 on `harvestW` at (0,0). -/
theorem harvest_at_spec_witness :
    harvestW.tilemap.wf ∧ harvestW.tilemap.in_bounds 0 0 = true ∧
    (((harvestW.tilemap.tileAt (0 : ℤ).toNat (0 : ℤ).toNat).resource = none →
        harvestW.harvest_at 0 0 "player" = some (false, harvestW)) ∧
      (∀ r defn disp,
        (harvestW.tilemap.tileAt (0 : ℤ).toNat (0 : ℤ).toNat).resource = some r →
        RESOURCE_DEFINITIONS r = some defn →
        RESOURCE_DISPLAY_NAMES defn.yield_item = some disp →
        ∃ w', harvestW.harvest_at 0 0 "player" = some (true, w') ∧
          w'.player.inventory =
            harvestW.player.inventory.add defn.yield_item defn.yield_amount ∧
          (w'.tilemap.tileAt (0 : ℤ).toNat (0 : ℤ).toNat).resource = none ∧
          w'.harvest_at 0 0 "player" = some (false, w'))) :=
  ⟨by decide, by decide, harvest_at_spec harvestW (by decide) 0 0 (by decide)⟩

/-! ## Player update (`src/src/gameplay/player.py:31-99`)

`Player.update` runs four phases in order: a continuous move gated by
the walkability of the proposed tile, target-tile acceptance once the
position is within `1e-4` of the current target centre, a step of at
most `speed*dt` toward the target centre with no walkability check on
the path, and finally a clamp of the position into
`[0, width-1e-3] × [0, height-1e-3]` plus hunger decay. -/

structure Keys where
  up : Bool := false
  down : Bool := false
  left : Bool := false
  right : Bool := false
  deriving Repr, DecidableEq

/-- The raw movement vector read from the keys (W/S/A/D or arrows). -/
def Keys.move (k : Keys) : ℚ × ℚ :=
  ((if k.left then -1 else 0) + (if k.right then 1 else 0),
   (if k.up then -1 else 0) + (if k.down then 1 else 0))

/-- Lines 42-48: normalized continuous move, accepted only when the
floor tile of the proposed position is in bounds and walkable. -/
def playerPhase1 (sq : ℚ → ℚ) (keys : Keys) (tm : TileMap) (dt : ℚ)
    (position : ℚ × ℚ) : ℚ × ℚ :=
  let move := keys.move
  if move ≠ (0, 0) then
    let len := sq (move.1 ^ 2 + move.2 ^ 2)
    let proposed := (position.1 + move.1 / len * PLAYER_MOVE_SPEED * dt,
                     position.2 + move.2 / len * PLAYER_MOVE_SPEED * dt)
    let tile_x := ⌊proposed.1⌋
    let tile_y := ⌊proposed.2⌋
    if tm.in_bounds tile_x tile_y = true ∧ tm.is_walkable tile_x tile_y = true
    then proposed else position
  else position

/-- Lines 52-74: snap to the target centre when within `1e-4` of it and
accept a new adjacent target tile if its (`int`-truncated) coordinates
are walkable. -/
def playerPhase2 (keys : Keys) (tm : TileMap) (position target : ℚ × ℚ) :
    (ℚ × ℚ) × (ℚ × ℚ) :=
  let eps_sq : ℚ := (1/10000) * (1/10000)
  if dist2 position target ≤ eps_sq then
    let move := keys.move
    if move ≠ (0, 0) then
      let desired := (target.1 + move.1, target.2 + move.2)
      let target_centre := ((⌊desired.1⌋ : ℚ) + 1/2, (⌊desired.2⌋ : ℚ) + 1/2)
      if target_centre ≠ target then
        let tile_x := pyInt target_centre.1
        let tile_y := pyInt target_centre.2
        if tm.is_walkable tile_x tile_y then (target, target_centre)
        else (target, target)
      else (target, target)
    else (target, target)
  else (position, target)

/-- Lines 76-87: advance toward the target centre by at most
`PLAYER_MOVE_SPEED * dt`, snapping when close; no walkability check. -/
def playerPhase3 (sq : ℚ → ℚ) (dt : ℚ) (position target : ℚ × ℚ) : ℚ × ℚ :=
  let eps : ℚ := 1/10000
  if dist2 position target > eps * eps then
    let direction := (target.1 - position.1, target.2 - position.2)
    let distance := sq (direction.1 ^ 2 + direction.2 ^ 2)
    if distance ≤ eps then target
    else
      let max_step := PLAYER_MOVE_SPEED * dt
      if distance ≤ max_step then target
      else (position.1 + direction.1 * (max_step / distance),
            position.2 + direction.2 * (max_step / distance))
  else position

/-- Lines 91-95: clamp the position into the grid. -/
def clampPos (tm : TileMap) (pos : ℚ × ℚ) : ℚ × ℚ :=
  let epsilon : ℚ := 1/1000
  let max_x := max 0 ((tm.width : ℚ) - epsilon)
  let max_y := max 0 ((tm.height : ℚ) - epsilon)
  (min (max pos.1 0) max_x, min (max pos.2 0) max_y)

/-- `Player.update(keys, tilemap, dt)`. -/
def Player.update (sq : ℚ → ℚ) (keys : Keys) (tm : TileMap) (dt : ℚ)
    (p : PlayerState) : PlayerState :=
  let pos1 := playerPhase1 sq keys tm dt p.position
  let pt := playerPhase2 keys tm pos1 p.target_tile
  let pos3 := playerPhase3 sq dt pt.1 pt.2
  { p with
    position := clampPos tm pos3,
    target_tile := pt.2,
    is_moving := decide (dist2 pos3 pt.2 > (1/10000) * (1/10000)),
    hunger := max 0 (p.hunger - PLAYER_HUNGER_DECAY / 60 * dt) }

theorem clampPos_bounds (tm : TileMap) (q : ℚ × ℚ) :
    0 ≤ (clampPos tm q).1 ∧
    (clampPos tm q).1 ≤ max 0 ((tm.width : ℚ) - 1/1000) ∧
    0 ≤ (clampPos tm q).2 ∧
    (clampPos tm q).2 ≤ max 0 ((tm.height : ℚ) - 1/1000) := by
  unfold clampPos
  dsimp only
  refine ⟨le_min (le_max_right _ _) (le_max_left _ _), min_le_right _ _,
    le_min (le_max_right _ _) (le_max_left _ _), min_le_right _ _⟩

/-- C2 (amended, player half): whatever the inputs, the square root
implementation, and the prior state, the player's position after
`Player.update` is clamped into the grid: each coordinate lies in
`[0, max(0, size - 1e-3)]`, hence strictly inside a non-empty grid. -/
theorem player_update_clamped (sq : ℚ → ℚ) (keys : Keys) (tm : TileMap)
    (dt : ℚ) (p : PlayerState) :
    0 ≤ (Player.update sq keys tm dt p).position.1 ∧
    (Player.update sq keys tm dt p).position.1 ≤
      max 0 ((tm.width : ℚ) - 1/1000) ∧
    0 ≤ (Player.update sq keys tm dt p).position.2 ∧
    (Player.update sq keys tm dt p).position.2 ≤
      max 0 ((tm.height : ℚ) - 1/1000) ∧
    (0 < tm.width → (Player.update sq keys tm dt p).position.1 < tm.width) ∧
    (0 < tm.height → (Player.update sq keys tm dt p).position.2 < tm.height) := by
  have hpos : (Player.update sq keys tm dt p).position =
      clampPos tm (playerPhase3 sq dt
        (playerPhase2 keys tm (playerPhase1 sq keys tm dt p.position)
          p.target_tile).1
        (playerPhase2 keys tm (playerPhase1 sq keys tm dt p.position)
          p.target_tile).2) := rfl
  obtain ⟨h1, h2, h3, h4⟩ := clampPos_bounds tm (playerPhase3 sq dt
    (playerPhase2 keys tm (playerPhase1 sq keys tm dt p.position)
      p.target_tile).1
    (playerPhase2 keys tm (playerPhase1 sq keys tm dt p.position)
      p.target_tile).2)
  rw [hpos]
  refine ⟨h1, h2, h3, h4, ?_, ?_⟩
  · intro hw
    have hwq : (0 : ℚ) < tm.width := by exact_mod_cast hw
    have : max 0 ((tm.width : ℚ) - 1/1000) < tm.width :=
      max_lt hwq (by linarith)
    linarith
  · intro hh
    have hhq : (0 : ℚ) < tm.height := by exact_mod_cast hh
    have : max 0 ((tm.height : ℚ) - 1/1000) < tm.height :=
      max_lt hhq (by linarith)
    linarith

/-- Witness for C2's amended theorem on a 1×1 grid. -/
theorem player_update_clamped_witness :
    0 < (TileMap.init 1 1).width ∧
    (Player.update sqrtQ {} (TileMap.init 1 1) 1
        { position := (1/2, 1/2), target_tile := (1/2, 1/2) }).position.1 <
      ((TileMap.init 1 1).width : ℚ) :=
  ⟨by decide,
    (player_update_clamped sqrtQ {} (TileMap.init 1 1) 1
      { position := (1/2, 1/2), target_tile := (1/2, 1/2) }).2.2.2.2.1
      (by decide)⟩

/-! ## Companion animal (`src/src/gameplay/animal.py`)

The animal's movement uses `Entity.move_towards` directly: neither the
idle follow nor the command execution performs any walkability or
bounds check on the resulting position. -/

/-- `Animal._idle_follow`: head for one tile left of the player whenever
farther than 1.8 from that point. -/
def Animal.idle_follow (sq : ℚ → ℚ) (playerPos : ℚ × ℚ) (dt : ℚ)
    (a : AnimalState) : AnimalState :=
  let target := (playerPos.1 + (-1 : ℚ), playerPos.2 + 0)
  if sq (dist2 a.position target) > 1.8 then
    { a with position := (move_towards sq a.position target
        ANIMAL_MOVE_SPEED dt).1 }
  else a

/-- `Animal._process_command`: returns (finished, animal, world);
`none` propagates a `KeyError` from `World.harvest_at`. -/
def Animal.process_command (sq : ℚ → ℚ) (dt : ℚ) (w : WorldState)
    (a : AnimalState) (cmd : Command) :
    Option (Bool × AnimalState × WorldState) :=
  if cmd.ctype = "goto" then
    let r := move_towards sq a.position cmd.target ANIMAL_MOVE_SPEED dt
    some (decide (r.2 ≤ 0.1), { a with position := r.1 }, w)
  else if cmd.ctype = "take" then
    let r := move_towards sq a.position cmd.target ANIMAL_MOVE_SPEED dt
    let a' := { a with position := r.1 }
    if r.2 ≤ 0.2 then
      match w.harvest_at (pyInt cmd.target.1) (pyInt cmd.target.2) "player" with
      | none => none
      | some (_, w') => some (true, a', w')
    else some (false, a', w)
  else if cmd.ctype = "place" then
    let block := cmd.block.getD "wood_block"
    let r := move_towards sq a.position cmd.target ANIMAL_MOVE_SPEED dt
    let a' := { a with position := r.1 }
    if r.2 ≤ 0.2 then
      some (true, a', (w.place_block (pyInt cmd.target.1) (pyInt cmd.target.2)
        block "animal").2)
    else some (false, a', w)
  else some (true, a, w)

/-- Finish running an active command: process it, clear it when it
reports finished, decay hunger. -/
def Animal.runActive (sq : ℚ → ℚ) (dt : ℚ) (w : WorldState) (cmd : Command)
    (pend : List Command) : Option WorldState :=
  match Animal.process_command sq dt w
      { w.animal with active_command := some cmd, pending_commands := pend }
      cmd with
  | none => none
  | some (finished, a', w') =>
    let hunger' := max 0 (a'.hunger - ANIMAL_HUNGER_DECAY / 60 * dt)
    let active' : Option Command := if finished then none else some cmd
    some { w' with animal := { a' with active_command := active', hunger := hunger' } }

/-- `Animal.update(world, dt)`: pop a pending command when idle, run the
active command or the idle follow, then decay hunger. -/
def Animal.update (sq : ℚ → ℚ) (w : WorldState) (dt : ℚ) :
    Option WorldState :=
  match w.animal.active_command, w.animal.pending_commands with
  | some cmd, _ => Animal.runActive sq dt w cmd w.animal.pending_commands
  | none, c :: rest => Animal.runActive sq dt w c rest
  | none, [] =>
    let a' := Animal.idle_follow sq w.player.position dt w.animal
    let hunger' := max 0 (a'.hunger - ANIMAL_HUNGER_DECAY / 60 * dt)
    some { w with animal := { a' with hunger := hunger' } }

/-- A 4×1 strip `grass grass water grass`. -/
def waterTM : TileMap :=
  { width := 4, height := 1,
    tiles := [[{ terrain := "grass" }, { terrain := "grass" },
               { terrain := "water", walkable := false },
               { terrain := "grass" }]] }

/-- Player near the left edge, idle companion on the right tile. -/
def waterW : WorldState :=
  { tilemap := waterTM,
    player := { position := (1/2, 1/2), target_tile := (1/2, 1/2) },
    animal := { position := (7/2, 1/2) } }

theorem sqrtQ_16 : sqrtQ 16 = 4 := by
  have h1 : ((16 : ℚ)).num = 16 := by norm_num
  have h2 : ((16 : ℚ)).den = 1 := by norm_num
  rw [sqrtQ, if_neg (by norm_num), h1, h2]
  rw [(by decide : natSqrt (Int.toNat 16) = 4), (by decide : natSqrt 1 = 1)]
  norm_num

/-- C2 counterexample: one idle-follow `Animal.update` on `waterW` (with
`dt = 1/3`, so the step is exactly one tile) finishes with the companion
resting at (5/2, 1/2), inside the water tile (2,0), which is not
walkable — the companion's movement path performs no collision check. -/
theorem animal_update_into_water :
    Animal.update sqrtQ waterW (1/3) =
      some { waterW with animal :=
        { position := (5/2, 1/2), hunger := 100 - 4 / 60 * (1/3) } } ∧
    (⌊(5/2 : ℚ)⌋, ⌊(1/2 : ℚ)⌋) = ((2 : ℤ), (0 : ℤ)) ∧
    waterW.tilemap.is_walkable 2 0 = false ∧
    waterW.tilemap.in_bounds 2 0 = true := by
  have hd : dist2 ((7 : ℚ)/2, (1 : ℚ)/2)
      ((1 : ℚ)/2 + (-1 : ℚ), (1 : ℚ)/2 + 0) = 16 := by
    norm_num [dist2]
  have hrun : Animal.update sqrtQ waterW (1/3) =
      some { waterW with animal :=
        { position := (5/2, 1/2), hunger := 100 - 4 / 60 * (1/3) } } := by
    unfold Animal.update
    dsimp only [waterW]
    unfold Animal.idle_follow
    dsimp only
    rw [hd, sqrtQ_16, if_pos (by norm_num : (4 : ℚ) > 1.8)]
    unfold move_towards
    dsimp only
    have harg : ((1 : ℚ)/2 + -1 - 7/2) ^ 2 + ((1 : ℚ)/2 + 0 - 1/2) ^ 2 = 16 := by
      norm_num
    rw [harg, sqrtQ_16, if_neg (by norm_num : ¬ (4 : ℚ) < 1/1000)]
    have hx : (7 : ℚ)/2 + ((1 : ℚ)/2 + -1 - 7/2) *
        (min 4 (ANIMAL_MOVE_SPEED * (1/3)) / 4) = 5/2 := by
      norm_num [ANIMAL_MOVE_SPEED]
    have hy : (1 : ℚ)/2 + ((1 : ℚ)/2 + 0 - 1/2) *
        (min 4 (ANIMAL_MOVE_SPEED * (1/3)) / 4) = 1/2 := by
      norm_num [ANIMAL_MOVE_SPEED]
    rw [hx, hy]
    norm_num [ANIMAL_HUNGER_DECAY, waterW]
  refine ⟨hrun, ?_, by decide, by decide⟩
  have h1 : ⌊(5/2 : ℚ)⌋ = 2 := by norm_num
  have h2 : ⌊(1/2 : ℚ)⌋ = 0 := by norm_num
  rw [h1, h2]

/-! ## Procedural generation (`src/src/engine/tilemap.py:42-172`)

`generate` samples two fractal value-noise fields per tile, classifies
terrain, and rolls resources from a `random.Random(seed)` stream.  The
stream is modelled as a function `ℕ → ℚ` (draw index ↦ value) threaded
through the loop by a counter, exactly in the order the Python code
draws; `random.Random(seed)` is itself a pure function of the seed, so
quantifying over the stream covers it. -/

/-- `TileMap._pseudo_random(x, y, seed)`.  Python ints behave as
infinite two's-complement words under `^`, `>>` and `&`; the final
`& 0xFFFFFFFF` depends only on the low 32 bits of the last xor, which
(through the shifts by 13 and 16 and the 31-bit multiplier) are
determined by the low 128 bits of `n`.  We therefore reduce `n` modulo
`2^128` up front (`Int.emod` matches Python `%` on a positive modulus)
and compute on ℕ. -/
def pseudo_random (x y seed : ℤ) : ℚ :=
  let n : ℤ := x * 374761393 + y * 668265263 + seed * 1446648777
  let m0 : ℕ := (n.emod (2 ^ 128)).toNat
  let m1 : ℕ := (m0 ^^^ (m0 >>> 13)) * 1274126177
  let m2 : ℕ := m1 ^^^ (m1 >>> 16)
  let r : ℕ := m2 &&& 0xFFFFFFFF
  (r : ℚ) / (0xFFFFFFFF : ℚ)

/-- `TileMap._fade`. -/
def fade (t : ℚ) : ℚ := t * t * t * (t * (t * 6 - 15) + 10)

/-- `TileMap._lerp`. -/
def lerp (a b t : ℚ) : ℚ := a + t * (b - a)

/-- `TileMap._value_noise(x, y, seed)`. -/
def value_noise (x y : ℚ) (seed : ℤ) : ℚ :=
  let xi : ℤ := ⌊x⌋
  let yi : ℤ := ⌊y⌋
  let xf := x - xi
  let yf := y - yi
  let top_left := pseudo_random xi yi seed
  let top_right := pseudo_random (xi + 1) yi seed
  let bottom_left := pseudo_random xi (yi + 1) seed
  let bottom_right := pseudo_random (xi + 1) (yi + 1) seed
  let u := fade xf
  let v := fade yf
  let top := lerp top_left top_right u
  let bottom := lerp bottom_left bottom_right u
  lerp top bottom v

/-- `TileMap._fractal_noise_2d`; the accumulator carries
(amplitude, frequency, total, max_amplitude).  The source raises
`ValueError` for `scale <= 0`; `generate` always passes scales ≥ 6. -/
def fractal_noise_2d (x y : ℚ) (scale : ℚ) (seed : ℤ) (octaves : ℕ)
    (persistence lacunarity : ℚ) : ℚ :=
  let res := (List.range octaves).foldl
    (fun acc octave =>
      let amplitude := acc.1
      let frequency := acc.2.1
      let total := acc.2.2.1
      let max_amplitude := acc.2.2.2
      (amplitude * persistence, frequency * lacunarity,
       total + value_noise (x * frequency) (y * frequency)
         (seed + (octave : ℤ) * 1013) * amplitude,
       max_amplitude + amplitude))
    ((1 : ℚ), 1 / scale, (0 : ℚ), (0 : ℚ))
  if res.2.2.2 = 0 then 0 else max 0 (min 1 (res.2.2.1 / res.2.2.2))

/-- `TileMap._maybe_spawn_resource(rng, terrain, height, moisture)`;
`stream st` is the next `rng.random()` draw, consumed only when the
Python short-circuit reaches it. -/
def maybe_spawn_resource (stream : ℕ → ℚ) (st : ℕ) (terrain : String)
    (height moisture : ℚ) : Option String × ℕ :=
  if terrain = "grass" then
    let d1 : Bool × ℕ :=
      if moisture > 0.6 then
        (decide (stream st < 0.05 + 0.25 * moisture), st + 1)
      else (false, st)
    if d1.1 then (some "tree", d1.2)
    else
      let d2 : Bool × ℕ :=
        if moisture > 0.45 then
          (decide (stream d1.2 < 0.08 + 0.12 * moisture), d1.2 + 1)
        else (false, d1.2)
      if d2.1 then (some "bush", d2.2) else (none, d2.2)
  else if terrain = "dirt" then
    let d1 : Bool × ℕ :=
      if moisture > 0.65 then
        (decide (stream st < 0.04 + 0.1 * (moisture - 0.65)), st + 1)
      else (false, st)
    if d1.1 then (some "tree", d1.2)
    else
      let d2 : Bool × ℕ :=
        if 0.45 < moisture ∧ moisture < 0.7 then
          (decide (stream d1.2 < 0.06), d1.2 + 1)
        else (false, d1.2)
      if d2.1 then (some "bush", d2.2) else (none, d2.2)
  else if terrain = "rock" then
    let rock_chance := 0.08 + max 0 (height - 0.75) * 0.3
    (if stream st < min 0.25 rock_chance then some "rock" else none, st + 1)
  else (none, st)

/-- The tile written at `(x, y)` by the body of `generate`'s loop,
together with the advanced rng counter. -/
def tileFor (stream : ℕ → ℚ) (seed : ℤ) (height_scale moisture_scale : ℚ)
    (x y : ℕ) (st : ℕ) : Tile × ℕ :=
  let height_seed := seed * 977 + 101
  let moisture_seed := seed * 1373 + 421
  let height_val := fractal_noise_2d x y height_scale height_seed 5 0.5 2
  let moisture_val :=
    fractal_noise_2d x y moisture_scale moisture_seed 4 0.6 2.1
  let tw := terrain_from_values height_val moisture_val
  let rs := maybe_spawn_resource stream st tw.1 height_val moisture_val
  ({ terrain := tw.1, walkable := tw.2, resource := rs.1, block := none },
   rs.2)

/-- Inner loop of `generate`: write tiles `x, x+1, …` of row `y`
(`fuel` tiles in all) into the existing row. -/
def genRow (stream : ℕ → ℚ) (seed : ℤ) (hs ms : ℚ) (y : ℕ) :
    ℕ → ℕ → ℕ → List Tile → List Tile × ℕ
  | _, 0, st, row => (row, st)
  | x, fuel + 1, st, row =>
    let r := tileFor stream seed hs ms x y st
    genRow stream seed hs ms y (x + 1) fuel r.2 (row.set x r.1)

/-- Outer loop of `generate`: rewrite rows `y, y+1, …` (`fuel` rows). -/
def genGrid (stream : ℕ → ℚ) (seed : ℤ) (hs ms : ℚ) (w : ℕ) :
    ℕ → ℕ → ℕ → List (List Tile) → List (List Tile) × ℕ
  | _, 0, st, rows => (rows, st)
  | y, fuel + 1, st, rows =>
    let r := genRow stream seed hs ms y 0 w st (rows.getD y [])
    genGrid stream seed hs ms w (y + 1) fuel r.2 (rows.set y r.1)

/-- `TileMap.generate(seed)` for a given seed (the `seed is None` branch
draws a random seed and then proceeds identically). -/
def TileMap.generate (stream : ℕ → ℚ) (seed : ℤ) (tm : TileMap) : TileMap :=
  let base_dimension : ℕ := max 1 (max tm.width tm.height)
  let height_scale : ℚ := max 8 ((base_dimension : ℚ) * 0.7)
  let moisture_scale : ℚ := max 6 ((base_dimension : ℚ) * 0.55)
  { tm with tiles := (genGrid stream seed height_scale moisture_scale
      tm.width 0 tm.height 0 tm.tiles).1 }

theorem genRow_length (stream : ℕ → ℚ) (seed : ℤ) (hs ms : ℚ) (y : ℕ) :
    ∀ fuel x st row,
      (genRow stream seed hs ms y x fuel st row).1.length = row.length := by
  intro fuel
  induction fuel with
  | zero => intro x st row; rfl
  | succ fuel ih =>
    intro x st row
    rw [genRow]
    rw [ih]
    simp

theorem genRow_congr (stream : ℕ → ℚ) (seed : ℤ) (hs ms : ℚ) (y : ℕ) :
    ∀ fuel x st r1 r2, r1.length = r2.length →
      (∀ i, i < x ∨ x + fuel ≤ i → r1.get? i = r2.get? i) →
      genRow stream seed hs ms y x fuel st r1 =
        genRow stream seed hs ms y x fuel st r2 := by
  intro fuel
  induction fuel with
  | zero =>
    intro x st r1 r2 hlen hag
    have : r1 = r2 := List.ext fun i => hag i (by omega)
    rw [this]
  | succ fuel ih =>
    intro x st r1 r2 hlen hag
    rw [genRow, genRow]
    apply ih (x + 1)
    · simp [hlen]
    · intro i hi
      by_cases hix : i = x
      · subst hix
        rw [List.get?_set, List.get?_set, if_pos rfl, if_pos rfl]
        by_cases hlt : i < r1.length
        · rw [List.get?_eq_get hlt, List.get?_eq_get (hlen ▸ hlt)]
          rfl
        · rw [List.get?_eq_none.mpr (by omega), List.get?_eq_none.mpr (by omega)]
      · rw [List.get?_set_ne _ _ (Ne.symm hix), List.get?_set_ne _ _ (Ne.symm hix)]
        exact hag i (by omega)

theorem genGrid_congr (stream : ℕ → ℚ) (seed : ℤ) (hs ms : ℚ) (w : ℕ) :
    ∀ fuel y st rows1 rows2,
      rows1.length = rows2.length →
      y + fuel ≤ rows1.length →
      (∀ row ∈ rows1, row.length = w) →
      (∀ row ∈ rows2, row.length = w) →
      (∀ i, i < y ∨ y + fuel ≤ i → rows1.get? i = rows2.get? i) →
      genGrid stream seed hs ms w y fuel st rows1 =
        genGrid stream seed hs ms w y fuel st rows2 := by
  intro fuel
  induction fuel with
  | zero =>
    intro y st rows1 rows2 hlen hfits hr1 hr2 hag
    have : rows1 = rows2 := List.ext fun i => hag i (by omega)
    rw [this]
  | succ fuel ih =>
    intro y st rows1 rows2 hlen hfits hr1 hr2 hag
    rw [genGrid, genGrid]
    have hylt : y < rows1.length := by omega
    have hylt2 : y < rows2.length := by omega
    have hl1 : (rows1.getD y []).length = w := by
      rw [List.getD_eq_getElem _ _ hylt]
      exact hr1 _ (List.getElem_mem hylt)
    have hl2 : (rows2.getD y []).length = w := by
      rw [List.getD_eq_getElem _ _ hylt2]
      exact hr2 _ (List.getElem_mem hylt2)
    have hrow : genRow stream seed hs ms y 0 w st (rows1.getD y []) =
        genRow stream seed hs ms y 0 w st (rows2.getD y []) := by
      apply genRow_congr
      · rw [hl1, hl2]
      · intro i hi
        have hwi : w ≤ i := by omega
        rw [List.get?_eq_none.mpr (by omega), List.get?_eq_none.mpr (by omega)]
    rw [hrow]
    apply ih (y + 1)
    · simp [hlen]
    · simp
      omega
    · intro row hmem
      rcases List.mem_or_eq_of_mem_set hmem with h | h
      · exact hr1 _ h
      · subst h
        rw [genRow_length, hl2]
    · intro row hmem
      rcases List.mem_or_eq_of_mem_set hmem with h | h
      · exact hr2 _ h
      · subst h
        rw [genRow_length, hl2]
    · intro i hi
      by_cases hiy : i = y
      · subst hiy
        rw [List.get?_set, List.get?_set, if_pos rfl, if_pos rfl,
          List.get?_eq_get hylt, List.get?_eq_get hylt2]
        rfl
      · rw [List.get?_set_ne _ _ (Ne.symm hiy), List.get?_set_ne _ _ (Ne.symm hiy)]
        exact hag i (by omega)

/-- C1: `generate` is a function of the seed (and the rng stream the
seed determines) and the grid dimensions alone.  Two TileMaps of the
same size — whatever tiles they currently hold, in particular two
freshly constructed ones — generate identical grids: the whole maps are
equal, so at every coordinate the tile (terrain, walkable and resource
alike) agrees across the two runs. -/
theorem generate_deterministic (stream : ℕ → ℚ) (seed : ℤ)
    (g1 g2 : TileMap) (hw : g1.width = g2.width) (hh : g1.height = g2.height)
    (hwf1 : g1.wf) (hwf2 : g2.wf) :
    TileMap.generate stream seed g1 = TileMap.generate stream seed g2 ∧
    ∀ x y : ℕ,
      (TileMap.generate stream seed g1).tileAt x y =
        (TileMap.generate stream seed g2).tileAt x y := by
  obtain ⟨hlen1, hrows1⟩ := hwf1
  obtain ⟨hlen2, hrows2⟩ := hwf2
  have hmain : TileMap.generate stream seed g1 =
      TileMap.generate stream seed g2 := by
    unfold TileMap.generate
    dsimp only
    rw [← hw, ← hh]
    rw [TileMap.mk.injEq]
    refine ⟨rfl, rfl, congrArg Prod.fst
      (genGrid_congr stream seed _ _ g1.width g1.height 0 0
        g1.tiles g2.tiles ?_ ?_ ?_ ?_ ?_)⟩
    · omega
    · omega
    · exact hrows1
    · intro row hmem
      rw [hrows2 row hmem, hw]
    · intro i hi
      rw [List.get?_eq_none.mpr (by omega), List.get?_eq_none.mpr (by omega)]
  exact ⟨hmain, fun x y => by rw [hmain]⟩

/-- Witness for C1: a fresh 2×2 map and a differently pre-filled 2×2
map generate the same grid. -/
theorem generate_deterministic_witness :
    ((TileMap.init 2 2).width =
        (TileMap.mk 2 2 [[{ terrain := "water", walkable := false },
          { terrain := "rock" }], [{ terrain := "sand" },
          { terrain := "dirt" }]]).width ∧
      (TileMap.init 2 2).height =
        (TileMap.mk 2 2 [[{ terrain := "water", walkable := false },
          { terrain := "rock" }], [{ terrain := "sand" },
          { terrain := "dirt" }]]).height ∧
      (TileMap.init 2 2).wf ∧
      (TileMap.mk 2 2 [[{ terrain := "water", walkable := false },
        { terrain := "rock" }], [{ terrain := "sand" },
        { terrain := "dirt" }]]).wf) ∧
    TileMap.generate (fun _ => 1/2) 42 (TileMap.init 2 2) =
      TileMap.generate (fun _ => 1/2) 42
        (TileMap.mk 2 2 [[{ terrain := "water", walkable := false },
          { terrain := "rock" }], [{ terrain := "sand" },
          { terrain := "dirt" }]]) :=
  ⟨⟨rfl, rfl, by decide, by decide⟩,
    (generate_deterministic (fun _ => 1/2) 42 (TileMap.init 2 2)
      (TileMap.mk 2 2 [[{ terrain := "water", walkable := false },
        { terrain := "rock" }], [{ terrain := "sand" },
        { terrain := "dirt" }]]) rfl rfl (by decide) (by decide)).1⟩

/-! ## World serialization (C6)

`save_manager.py` persists `{"metadata": …, "world": world.to_dict()}`
and loads with `World.from_save(payload["world"], metadata)`, but
`World.to_dict` / `World.from_save` themselves are not under `src/` —
only `Animal.to_dict/from_dict` and `Inventory.to_dict/from_dict` are.
The missing World/Player/grid serialization is modelled from the spec
(§6): the grid as a row-major sequence of
`{terrain, walkable, resource, block}` records plus the seed and size,
the player as position/hunger/inventory/selected block, the companion
by its own (source) `to_dict`. -/

/-- `Animal._serialise_command`: the target pair becomes a two-element
list; other fields are carried over. -/
structure SavedCommand where
  ctype : String
  target : List ℚ
  block : Option String := none
  deriving Repr, DecidableEq

def Command.serialise (c : Command) : SavedCommand :=
  { ctype := c.ctype, target := [c.target.1, c.target.2], block := c.block }

/-- `Animal._deserialise_command`: a list of length ≥ 2 becomes a pair
(the typed model cannot carry an ill-formed target "as is" like the
dynamic code, but serialisation only ever produces length-2 lists). -/
def Command.deserialise (sc : SavedCommand) : Command :=
  { ctype := sc.ctype,
    target := if 2 ≤ sc.target.length
      then (sc.target.getD 0 0, sc.target.getD 1 0) else (0, 0),
    block := sc.block }

/-- `Animal.to_dict`'s shape. -/
structure SavedAnimal where
  position : List ℚ
  hunger : ℚ
  pending_commands : List SavedCommand
  active_command : Option SavedCommand
  deriving Repr, DecidableEq

/-- `Animal.to_dict`. -/
def AnimalState.to_dict (a : AnimalState) : SavedAnimal :=
  { position := [a.position.1, a.position.2],
    hunger := a.hunger,
    pending_commands := a.pending_commands.map Command.serialise,
    active_command := a.active_command.map Command.serialise }

/-- `Animal.from_dict`: malformed positions fall back to `(0, 0)`. -/
def AnimalState.from_dict (sa : SavedAnimal) : AnimalState :=
  { position := if 2 ≤ sa.position.length
      then (sa.position.getD 0 0, sa.position.getD 1 0) else (0, 0),
    hunger := sa.hunger,
    pending_commands := sa.pending_commands.map Command.deserialise,
    active_command := sa.active_command.map Command.deserialise }

/-- `Inventory.to_dict` returns `{"stacks": dict(self.stacks)}`; the
typed payload is the stack list itself. -/
def Inventory.to_dict (inv : Inventory) : List (String × ℤ) := inv.stacks'

/-- `Inventory.from_dict` (string keys and integer counts are already
guaranteed by the typed payload). -/
def Inventory.from_dict (d : List (String × ℤ)) : Inventory :=
  { stacks' := d }

/-- Modelled from the spec: the player's serialized record — "position
(two floats), hunger (float), inventory (mapping of string→int),
selected block (string)" (spec §6).  `Player.to_dict` is not in `src/`. -/
structure SavedPlayer where
  position : List ℚ
  hunger : ℚ
  inventory : List (String × ℤ)
  selected_block : String
  deriving Repr, DecidableEq

/-- Modelled from the spec: the world-state blob — "full grid
serialization as a row-major sequence of `{terrain, walkable, resource,
block}` records plus the seed" and the two entity records (spec §6).
`World.to_dict` is not in `src/`; `seed` is `none` because this `World`
carries no seed attribute (`save_manager.py` falls back the same way). -/
structure WorldSave where
  width : ℕ
  height : ℕ
  seed : Option ℤ := none
  tiles : List Tile
  player : SavedPlayer
  animal : SavedAnimal
  deriving Repr, DecidableEq

/-- Modelled from the spec: `World.to_dict` (absent from `src/`). -/
def WorldState.to_dict (w : WorldState) : WorldSave :=
  { width := w.tilemap.width,
    height := w.tilemap.height,
    seed := none,
    tiles := w.tilemap.tiles.join,
    player := { position := [w.player.position.1, w.player.position.2],
                hunger := w.player.hunger,
                inventory := w.player.inventory.to_dict,
                selected_block := w.player.selected_block },
    animal := w.animal.to_dict }

/-- Rebuild the row-major tile list into `h` rows of `w` tiles. -/
def unflattenRows (w : ℕ) : ℕ → List Tile → List (List Tile)
  | 0, _ => []
  | h + 1, l => l.take w :: unflattenRows w h (l.drop w)

/-- Modelled from the spec: `World.from_save` (absent from `src/`).
A structurally broken grid (zero dimension or wrong tile count) rejects
the load outright (spec §7); individually missing optional entity fields
fall back to defaults (the player's `target_tile` is re-derived from the
position as `Player.__init__` does, `is_moving` resets, the message and
campfire list start empty). -/
def World.from_save (s : WorldSave) : Option WorldState :=
  if s.width = 0 ∨ s.height = 0 ∨ s.tiles.length ≠ s.width * s.height then
    none
  else
    let ppos : ℚ × ℚ := if 2 ≤ s.player.position.length
      then (s.player.position.getD 0 0, s.player.position.getD 1 0)
      else (0, 0)
    some
      { tilemap := { width := s.width, height := s.height,
                     tiles := unflattenRows s.width s.height s.tiles },
        player := { position := ppos,
                    target_tile := ((⌊ppos.1⌋ : ℚ) + 1/2, (⌊ppos.2⌋ : ℚ) + 1/2),
                    is_moving := false,
                    inventory := Inventory.from_dict s.player.inventory,
                    hunger := s.player.hunger,
                    selected_block := s.player.selected_block },
        animal := AnimalState.from_dict s.animal,
        campfires := [], message := none }

/-- `save_world(world, slot_name)` at the save-directory level: the
slot's file is created or overwritten with the world blob. -/
def save_world (store : List (String × WorldSave)) (slot : String)
    (w : WorldState) : List (String × WorldSave) :=
  dictSet store slot w.to_dict

/-- `load_world(slot_name)`: missing slot is "file not found" (`none`),
otherwise the stored blob is reconstructed with `World.from_save`. -/
def load_world (store : List (String × WorldSave)) (slot : String) :
    Option WorldState :=
  match dictFind store slot with
  | none => none
  | some payload => World.from_save payload

theorem join_length_const (w : ℕ) :
    ∀ rows : List (List Tile), (∀ row ∈ rows, row.length = w) →
      rows.join.length = rows.length * w := by
  intro rows
  induction rows with
  | nil => intro _; simp
  | cons r rest ih =>
    intro hr
    have hrl : r.length = w := hr r (List.mem_cons_self _ _)
    simp only [List.join_cons, List.length_append, List.length_cons, hrl,
      ih (fun row hrow => hr row (List.mem_cons_of_mem _ hrow))]
    ring

theorem unflattenRows_join (w : ℕ) :
    ∀ rows : List (List Tile), (∀ row ∈ rows, row.length = w) →
      unflattenRows w rows.length rows.join = rows := by
  intro rows
  induction rows with
  | nil => intro _; rfl
  | cons r rest ih =>
    intro hr
    have hrl : r.length = w := hr r (List.mem_cons_self _ _)
    have htail := ih (fun row hrow => hr row (List.mem_cons_of_mem _ hrow))
    simp only [List.length_cons, List.join_cons, unflattenRows]
    rw [List.take_left' hrl, List.drop_left' hrl, htail]

theorem command_round_trip (c : Command) :
    Command.deserialise (Command.serialise c) = c := by
  unfold Command.serialise Command.deserialise
  simp

theorem animal_round_trip (a : AnimalState) :
    AnimalState.from_dict a.to_dict = a := by
  obtain ⟨pos, hung, pend, act⟩ := a
  unfold AnimalState.to_dict AnimalState.from_dict
  have hmap : List.map Command.deserialise
      (List.map Command.serialise pend) = pend := by
    rw [List.map_map]
    have hcomp : Command.deserialise ∘ Command.serialise = id :=
      funext command_round_trip
    rw [hcomp, List.map_id]
  cases act <;> simp [hmap, command_round_trip]

theorem from_save_to_dict (w : WorldState) (hwf : w.tilemap.wf)
    (hw0 : 0 < w.tilemap.width) (hh0 : 0 < w.tilemap.height) :
    World.from_save (WorldState.to_dict w) = some
      { tilemap := w.tilemap,
        player := { position := w.player.position,
                    target_tile := ((⌊w.player.position.1⌋ : ℚ) + 1/2,
                      (⌊w.player.position.2⌋ : ℚ) + 1/2),
                    is_moving := false,
                    inventory := w.player.inventory,
                    hunger := w.player.hunger,
                    selected_block := w.player.selected_block },
        animal := w.animal, campfires := [], message := none } := by
  obtain ⟨hlen, hrows⟩ := hwf
  have hjoin : w.tilemap.tiles.join.length =
      w.tilemap.height * w.tilemap.width := by
    rw [join_length_const w.tilemap.width w.tilemap.tiles hrows, hlen]
  unfold World.from_save WorldState.to_dict
  dsimp only
  rw [if_neg (by
    push_neg
    exact ⟨by omega, by omega, by rw [hjoin, Nat.mul_comm]⟩)]
  refine congrArg some ?_
  rw [WorldState.mk.injEq]
  refine ⟨?_, ?_, animal_round_trip w.animal, rfl, rfl⟩
  · rw [TileMap.mk.injEq]
    refine ⟨rfl, rfl, ?_⟩
    rw [← hlen]
    exact unflattenRows_join w.tilemap.width w.tilemap.tiles hrows
  · rw [PlayerState.mk.injEq]
    refine ⟨by simp, by simp, rfl, rfl, rfl, rfl⟩

/-- C6 (spec-modelled World/Player serialization, source Animal and
Inventory serialization): saving a well-formed world to a slot and
loading that slot back reconstructs the grid tile-for-tile (harvested
resources stay harvested, placed blocks stay placed), the player's
position, hunger, inventory and selected block, and the companion's
entire state including its command queue; and re-serializing the loaded
world yields a structure equal to the first serialization. -/
theorem save_load_round_trip (store : List (String × WorldSave))
    (slot : String) (w : WorldState) (hwf : w.tilemap.wf)
    (hw0 : 0 < w.tilemap.width) (hh0 : 0 < w.tilemap.height) :
    ∃ w', load_world (save_world store slot w) slot = some w' ∧
      World.from_save (WorldState.to_dict w) = some w' ∧
      w'.tilemap = w.tilemap ∧
      w'.player.position = w.player.position ∧
      w'.player.hunger = w.player.hunger ∧
      w'.player.inventory = w.player.inventory ∧
      w'.player.selected_block = w.player.selected_block ∧
      w'.animal = w.animal ∧
      WorldState.to_dict w' = WorldState.to_dict w := by
  have hfs := from_save_to_dict w hwf hw0 hh0
  refine ⟨_, ?_, hfs, rfl, rfl, rfl, rfl, rfl, rfl, rfl⟩
  unfold load_world save_world
  rw [dictFind_dictSet_self]
  exact hfs

/-- A concrete 2×1 world: one harvested-then-built tile, one bush tile,
stocked inventory, queued and active companion commands. -/
def saveTM : TileMap :=
  { width := 2, height := 1,
    tiles := [[{ terrain := "grass", walkable := true, resource := none,
                 block := some "wood_block" },
               { terrain := "grass", walkable := true,
                 resource := some "bush", block := none }]] }

def saveCmd : Command :=
  { ctype := "place", target := (0, 0), block := some "campfire" }

def saveW : WorldState :=
  { tilemap := saveTM,
    player := { position := (1/2, 1/2), target_tile := (1/2, 1/2),
                inventory := { stacks' := [("wood", 3), ("berries", 1)] } },
    animal := { position := (3/2, 1/2),
                pending_commands := [{ ctype := "goto", target := (2, 2) }],
                active_command := some saveCmd } }

/-- Witness for C6 on `saveW` in slot "slot1" of an empty save dir. -/
theorem save_load_round_trip_witness :
    saveW.tilemap.wf ∧ 0 < saveW.tilemap.width ∧ 0 < saveW.tilemap.height ∧
    ∃ w', load_world (save_world [] "slot1" saveW) "slot1" = some w' ∧
      World.from_save (WorldState.to_dict saveW) = some w' ∧
      w'.tilemap = saveW.tilemap ∧
      w'.player.position = saveW.player.position ∧
      w'.player.hunger = saveW.player.hunger ∧
      w'.player.inventory = saveW.player.inventory ∧
      w'.player.selected_block = saveW.player.selected_block ∧
      w'.animal = saveW.animal ∧
      WorldState.to_dict w' = WorldState.to_dict saveW :=
  ⟨by decide, by decide, by decide,
    save_load_round_trip [] "slot1" saveW (by decide) (by decide) (by decide)⟩

end Prismalia
